import Mathlib

/-!
Verification of the Brain OS knowledge ingestion and validation pipeline.

This file gives a shallow embedding of the pipeline's source
(`src/ontology/*.py`, `src/validation/*.py`, `src/extraction/*.py`,
`src/storage/sqlite_adapter.py`) and proves or refutes the frozen claims
about it.  Python floats are modelled as exact rationals, Python strings
as Lean strings, uuid4 identifiers as a threaded natural-number counter,
dictionaries as association lists or explicit lookup functions, and the
sqlite transaction as a buffered database that is committed only on
success.
-/

namespace BrainOS

/-- Python `min(a, b)`: returns the first argument on ties. -/
def rmin (a b : ℚ) : ℚ := if a ≤ b then a else b

/-- The literal 0.5, in reduced form so that it evaluates in the kernel. -/
def q_half : ℚ := ⟨1, 2, by norm_num, by norm_num⟩

/-- The literal 0.3, in reduced form so that it evaluates in the kernel. -/
def q_three_tenths : ℚ := ⟨3, 10, by norm_num, by norm_num⟩

/-- The literal 0.6, in reduced form so that it evaluates in the kernel. -/
def q_three_fifths : ℚ := ⟨3, 5, by norm_num, by norm_num⟩

/-- The literal 0.9, in reduced form so that it evaluates in the kernel. -/
def q_nine_tenths : ℚ := ⟨9, 10, by norm_num, by norm_num⟩

/-- The literal 1.5, in reduced form so that it evaluates in the kernel. -/
def q_three_halves : ℚ := ⟨3, 2, by norm_num, by norm_num⟩

/-- `isPrefixL n h` decides whether `n` is a prefix of `h` (Python `startswith`). -/
def isPrefixL : List Char → List Char → Bool
  | [], _ => true
  | _ :: _, [] => false
  | a :: as, b :: bs => a == b && isPrefixL as bs

/-- Python's substring test `n in h` on strings, as lists of characters. -/
def containsSub : List Char → List Char → Bool
  | n, [] => isPrefixL n []
  | n, h :: hs => isPrefixL n (h :: hs) || containsSub n hs

/-- Python `s2 in s1`-style substring test on strings. -/
def substrB (needle hay : String) : Bool :=
  containsSub needle.toList hay.toList

/-- Python `str.strip()` on a list of characters. -/
def stripL (l : List Char) : List Char :=
  ((l.dropWhile Char.isWhitespace).reverse.dropWhile Char.isWhitespace).reverse

/-- Python `str.lower()` (ASCII case folding, like `Char.toLower`), defined by
structural recursion over the character list so it reduces in the kernel. -/
def pyLower (s : String) : String :=
  String.mk (s.toList.map Char.toLower)

/-- `extraction/similarity.py`: `normalize_entity_name` = `name.lower().strip()`. -/
def normalize_entity_name (name : String) : String :=
  String.mk (stripL (pyLower name).toList)

/-- First-match association-list lookup (Python dict read). -/
def lookupL {α β : Type} [DecidableEq α] (k : α) : List (α × β) → Option β
  | [] => none
  | (k2, v) :: rest => if k2 = k then some v else lookupL k rest

/-- Python dict write `d[k] = v`: replace in place if present, else append. -/
def alistSet {α β : Type} [DecidableEq α] (k : α) (v : β) : List (α × β) → List (α × β)
  | [] => [(k, v)]
  | (k2, v2) :: rest => if k2 = k then (k, v) :: rest else (k2, v2) :: alistSet k v rest

/-- Python `d.update(d2)` over association lists. -/
def alistUpdate {α β : Type} [DecidableEq α] (d : List (α × β)) (d2 : List (α × β)) :
    List (α × β) :=
  d2.foldl (fun acc kv => alistSet kv.1 kv.2 acc) d

/-- Python dict delete `del d[k]`. -/
def alistDel {α β : Type} [DecidableEq α] (k : α) (d : List (α × β)) : List (α × β) :=
  d.filter (fun kv => kv.1 ≠ k)

/-- A JSON-ish value stored in `semantic_properties` (shallow universe:
numbers — Python ints, floats and bools are all numbers for the purposes of
`isinstance(x, (int, float))` — and strings). -/
inductive SemValue : Type
  | num (q : ℚ)
  | str (s : String)
deriving DecidableEq, Repr

/-- `extraction/models.py` `ExtractedEntity`.  Entity types are the string
values of the `EntityType` str-enum ("Concept", "Person", ...). -/
structure ExtractedEntity : Type where
  name : String
  type : String
  description : String
  keywords : List String
  confidence : ℚ
  doctrinal_context : Option String := none
  goals : List String := []
  non_goals : List String := []
deriving DecidableEq, Repr

/-- `extraction/models.py` `ExtractedRelationship`.  `usage_context` and
`uncertainty` are the string values of their str-enums. -/
structure ExtractedRelationship : Type where
  machine_name : String
  source_entity : String
  target_entity : String
  semantic_properties : List (String × SemValue)
  usage_context : String
  evidence_span : String
  uncertainty : String := "Low"
  axis : Option String := none
  polarity : Option String := none
  confidence : ℚ
deriving DecidableEq, Repr

/-- One property schema entry of `RelationshipType.properties_schema`
(`{"type": ..., "values": [...]}`). -/
structure PropSchema : Type where
  ptype : Option String := none
  pvalues : List SemValue := []
deriving DecidableEq, Repr

/-- `ontology/relation_types.py` `RelationshipType`.  Registry ids are
naturals (uuid4 strings in the source). -/
structure RelationshipType : Type where
  id : Option ℕ := none
  machine_name : String
  description : String
  category : String
  directional : Bool := true
  deterministic : Bool := false
  allowed_entity_types : Option (List (String × List String)) := none
  properties_schema : Option (List (String × PropSchema)) := none
  version : String := "1.0"
  deprecated : Bool := false
deriving DecidableEq, Repr

/-- `ontology/schema.py` `EntityNode` (the in-memory mirror record). -/
structure EntityNode : Type where
  id : ℕ
  name : String
  type : String
  description : String
  keywords : List String
  source_knowledge_ids : List ℕ := []
  doctrinal_context : Option String := none
  goals : List String := []
  non_goals : List String := []
deriving DecidableEq, Repr

/-- `ontology/schema.py` `KnowledgeEntry` (the in-memory mirror record;
`related_entity_ids` defaults to `[]`). -/
structure KnowledgeEntry : Type where
  id : ℕ
  content_raw : String
  timestamp : String
  related_entity_ids : List ℕ := []
deriving DecidableEq, Repr

/-- `ontology/schema.py` `RelationAssertion` (the in-memory mirror record). -/
structure RelationAssertion : Type where
  id : ℕ
  knowledge_id : ℕ
  relationship_type_id : ℕ
  source_entity_id : ℕ
  target_entity_id : ℕ
  semantic_properties : List (String × SemValue) := []
  evidence_ids : List ℕ := []
  axis : Option String := none
  polarity : Option String := none
  extraction_confidence : ℚ := 0
  ontology_confidence : ℚ := 0
  system_confidence : ℚ := 0
  status : String := "extracted"
  created_at : Option String := none
  usage_context : Option String := none
deriving DecidableEq, Repr

/-- The score part of one ontology rule
(`ontology/ontology_rules.py` `OntologyRule.evaluate`). -/
def OntRule : Type :=
  ExtractedRelationship → RelationshipType → EntityNode → EntityNode → ℚ × Option String

/-- `r1_instance_target_concept`: `instance_of` requires a Concept target. -/
def r1_instance_target_concept : OntRule := fun _rel rt _s t =>
  if rt.machine_name = "instance_of" ∧ t.type ≠ "Concept" then
    (0, some "Target must be Concept")
  else (1, none)

/-- `r2_subclass_concept`: `subclass_of` requires Concept → Concept. -/
def r2_subclass_concept : OntRule := fun _rel rt s t =>
  if rt.machine_name = "subclass_of" ∧ (s.type ≠ "Concept" ∨ t.type ≠ "Concept") then
    (0, some "Requires Concept->Concept")
  else (1, none)

/-- `r5_deterministic_prob`: a deterministic type rejects a declared numeric
`probability` strictly below 1.0 (`isinstance(prob, (int, float)) and prob < 1.0`). -/
def r5_deterministic_prob : OntRule := fun rel rt _s _t =>
  if rt.deterministic then
    match lookupL "probability" rel.semantic_properties with
    | some (SemValue.num q) =>
        if q < 1 then (0, some "Deterministic means prob 1.0") else (1, none)
    | _ => (1, none)
  else (1, none)

/-- `r6_temporal_lag`: temporal category requires a `temporal_lag` property. -/
def r6_temporal_lag : OntRule := fun rel rt _s _t =>
  if rt.category = "temporal" ∧ lookupL "temporal_lag" rel.semantic_properties = none then
    (0, some "Missing temporal_lag")
  else (1, none)

/-- `r10_hypothesis_deterministic`: hypothesis usage forbids deterministic types. -/
def r10_hypothesis_deterministic : OntRule := fun rel rt _s _t =>
  if rel.usage_context = "hypothesis" ∧ rt.deterministic then
    (0, some "Hypothesis cannot be deterministic")
  else (1, none)

/-- `r3_causal_target_person` (heuristic, 0.5). -/
def r3_causal_target_person : OntRule := fun _rel rt _s t =>
  if rt.category = "causal" ∧ t.type = "Person" then
    (q_half, some "Causal target Person (Heuristic)")
  else (1, none)

/-- `r7_concept_act` (heuristic, 0.5): a Concept source cannot act. -/
def r7_concept_act : OntRule := fun _rel rt s _t =>
  if s.type = "Concept" ∧ rt.machine_name ∈ ["causes", "teaches", "performs"] then
    (q_half, some "Concept cannot Act (Heuristic)")
  else (1, none)

/-- `r8_teaches_agent` (heuristic, 0.5): `teaches` wants a Person/Organization source. -/
def r8_teaches_agent : OntRule := fun _rel rt s _t =>
  if rt.machine_name = "teaches" ∧ s.type ∉ ["Person", "Organization"] then
    (q_half, some "Teacher must be Agent (Heuristic)")
  else (1, none)

/-- The imperative cue list of `r4_imperative_evidence`. -/
def imperative_cues : List String :=
  ["practice ", "do not ", "don't ", "try to ", "let us ", "you must ", "should "]

/-- `r4_imperative_evidence` (heuristic, 0.3). -/
def r4_imperative_evidence : OntRule := fun rel rt _s _t =>
  let span_lower := pyLower rel.evidence_span
  if rt.machine_name = "performs" ∧ imperative_cues.any (fun cue => substrB cue span_lower) then
    (q_three_tenths, some "Imperative/Advice evidence implies no factual performs")
  else (1, none)

/-- The definitional phrases required by `r11_is_a_evidence_check` and
`block_invalid_is_a`. -/
def type_words : List String :=
  ["is a", "belongs to", "type of", "kind of", "class of"]

/-- `r11_is_a_evidence_check`: registered as a heuristic but returns a hard 0.0
when an `is_a` relationship lacks definitional evidence phrasing. -/
def r11_is_a_evidence_check : OntRule := fun rel rt _s _t =>
  if rt.machine_name = "is_a" then
    if type_words.any (fun w => substrB w (pyLower rel.evidence_span)) then (1, none)
    else (0, some "Evidence does not support is_a")
  else (1, none)

/-- `r9_evidence_names` (evidence rule, 0.6): the span must mention both
entity names case-insensitively. -/
def r9_evidence_names : OntRule := fun rel _rt s t =>
  let span := pyLower rel.evidence_span
  if substrB (pyLower s.name) span ∧ substrB (pyLower t.name) span then (1, none)
  else (q_three_fifths, some "Evidence missing entity names")

/-- Registration order of `@ontology_constraint` in `ontology_rules.py`. -/
def ONTOLOGY_CONSTRAINTS : List OntRule :=
  [r1_instance_target_concept, r2_subclass_concept, r5_deterministic_prob,
   r6_temporal_lag, r10_hypothesis_deterministic]

/-- Registration order of `@heuristic_rule` in `ontology_rules.py`. -/
def HEURISTIC_RULES : List OntRule :=
  [r3_causal_target_person, r7_concept_act, r8_teaches_agent,
   r4_imperative_evidence, r11_is_a_evidence_check]

/-- Registration order of `@evidence_rule` in `ontology_rules.py`. -/
def EVIDENCE_RULES : List OntRule :=
  [r9_evidence_names]

/-- The hard-constraint loop of `calculate_ontology_confidence`: a 0.0 score
returns immediately (`none`); otherwise scores below 1.0 fold into the
running minimum. -/
def run_constraints (rel : ExtractedRelationship) (rt : RelationshipType)
    (s t : EntityNode) : List OntRule → ℚ → Option ℚ
  | [], score => some score
  | r :: rs, score =>
      let sc := (r rel rt s t).1
      if sc = 0 then none
      else run_constraints rel rt s t rs (if sc < 1 then rmin score sc else score)

/-- The heuristic/evidence loops of `calculate_ontology_confidence`: fold
scores below 1.0 into the running minimum. -/
def fold_rules (rel : ExtractedRelationship) (rt : RelationshipType)
    (s t : EntityNode) : List OntRule → ℚ → ℚ
  | [], score => score
  | r :: rs, score =>
      let sc := (r rel rt s t).1
      fold_rules rel rt s t rs (if sc < 1 then rmin score sc else score)

/-- `validation/ontology_confidence.py` `calculate_ontology_confidence`. -/
def calculate_ontology_confidence (rel : ExtractedRelationship)
    (rt : RelationshipType) (s t : EntityNode) : ℚ :=
  match run_constraints rel rt s t ONTOLOGY_CONSTRAINTS 1 with
  | none => 0
  | some score =>
      fold_rules rel rt s t EVIDENCE_RULES (fold_rules rel rt s t HEURISTIC_RULES score)

/-- `validation/validation_rules.py` `block_invalid_is_a`. -/
def block_invalid_is_a (rel : ExtractedRelationship) : Bool :=
  if rel.machine_name = "is_a" then
    type_words.any (fun w => substrB w (pyLower rel.evidence_span))
  else true

/-- `validation/validation_rules.py` `block_question_evidence`. -/
def block_question_evidence (rel : ExtractedRelationship) : Bool :=
  let text := stripL rel.evidence_span.toList
  let tl := text.map Char.toLower
  if text.getLast? = some '?' ∨
      (isPrefixL "does".toList tl ∨ isPrefixL "is".toList tl ∨
       isPrefixL "are".toList tl ∨ isPrefixL "can".toList tl) then
    false
  else true

/-- Modelled from the spec: `validation/rules_registry.py` is not in the
source tree; per §4.2(a) and the `@register_rule` usage in
`validation_rules.py` it collects the two pre-validation guards in
definition order. -/
def VALIDATION_RULES : List (ExtractedRelationship → Bool) :=
  [block_invalid_is_a, block_question_evidence]

/-- `validation/relation_validator.py` `run_all_validation_rules`. -/
def run_all_validation_rules (rel : ExtractedRelationship) : Bool :=
  VALIDATION_RULES.all (fun r => r rel)

/-- `validation/relation_validator.py` `validate_extracted_relationship`
(schema conformance: allowed entity types, property presence, enum values). -/
def validate_extracted_relationship (rel : ExtractedRelationship)
    (rel_type : RelationshipType) (source_entity target_entity : EntityNode) : Bool :=
  let typeOk :=
    match rel_type.allowed_entity_types with
    | none => true
    | some m =>
        let src_allowed := (lookupL "source" m).getD []
        let tgt_allowed := (lookupL "target" m).getD []
        if src_allowed.any (fun x => x = source_entity.type) = false then false
        else if tgt_allowed.any (fun x => x = target_entity.type) = false then false
        else true
  if typeOk = false then false
  else
    match rel_type.properties_schema with
    | none => true
    | some props =>
        props.all (fun kv =>
          match lookupL kv.1 rel.semantic_properties with
          | none => false
          | some v =>
              if kv.2.ptype = some "enum" then
                kv.2.pvalues.any (fun w => w = v)
              else true)

/-- `validation/relation_validator.py` `full_relation_validation`:
pre-validation guards, then the 0.5 ontology-confidence threshold
(`conf < 0.5` rejects), then schema validation. -/
def full_relation_validation (rel : ExtractedRelationship)
    (rel_type : RelationshipType) (source_entity target_entity : EntityNode) : Bool :=
  if run_all_validation_rules rel = false then false
  else if calculate_ontology_confidence rel rel_type source_entity target_entity < q_half then
    false
  else if validate_extracted_relationship rel rel_type source_entity target_entity = false then
    false
  else true

/-! ### Similarity scorer (`extraction/similarity.py`) -/

/-- Longest common extension: length of the longest common prefix of two
character lists. -/
def lce : List Char → List Char → ℕ
  | a :: as, b :: bs => if a = b then lce as bs + 1 else 0
  | _, _ => 0

/-- Length of the longest match of `a` and `b` starting at positions `i`, `j`
and staying inside `[i, ahi)` × `[j, bhi)` (difflib's maximal block at a
fixed start). -/
def extLen (a b : List Char) (ahi bhi i j : ℕ) : ℕ :=
  lce ((a.drop i).take (ahi - i)) ((b.drop j).take (bhi - j))

/-- Maximum of `f i j` over `i ∈ is`, `j ∈ js` (0 when empty). -/
def pairMax (f : ℕ → ℕ → ℕ) (is js : List ℕ) : ℕ :=
  is.foldr (fun i acc => js.foldr (fun j acc2 => max (f i j) acc2) acc) 0

/-- difflib `SequenceMatcher.find_longest_match` (no junk, which is the
behaviour on strings shorter than 200 characters): among all maximal matching
blocks inside the window, pick the one starting earliest in `a`, then
earliest in `b`; `(alo, blo, 0)` when there is no nonempty match. -/
def flm (a b : List Char) (alo ahi blo bhi : ℕ) : ℕ × ℕ × ℕ :=
  let ipool := List.range' alo (ahi - alo)
  let jpool := List.range' blo (bhi - blo)
  let bestk := pairMax (extLen a b ahi bhi) ipool jpool
  if bestk = 0 then (alo, blo, 0)
  else
    match ipool.find? (fun i => jpool.any (fun j => extLen a b ahi bhi i j == bestk)) with
    | none => (alo, blo, 0)
    | some i =>
        match jpool.find? (fun j => extLen a b ahi bhi i j == bestk) with
        | none => (alo, blo, 0)
        | some j => (i, j, bestk)

/-- Total number of matched characters of difflib `get_matching_blocks`:
recursively split the window around the longest match.  `fuel` only bounds
the recursion depth; `ahi - alo` is always enough. -/
def matchTotal (a b : List Char) : ℕ → ℕ → ℕ → ℕ → ℕ → ℕ
  | 0, _, _, _, _ => 0
  | fuel + 1, alo, ahi, blo, bhi =>
      let r := flm a b alo ahi blo bhi
      if r.2.2 = 0 then 0
      else
        matchTotal a b fuel alo r.1 blo r.2.1 + r.2.2 +
          matchTotal a b fuel (r.1 + r.2.2) ahi (r.2.1 + r.2.2) bhi

/-- difflib `SequenceMatcher.ratio()` on two character lists:
`2 * M / (len(a) + len(b))` (1.0 for two empty sequences). -/
def sm_score (a b : List Char) : ℚ :=
  if a.length + b.length = 0 then 1
  else 2 * (matchTotal a b a.length 0 a.length 0 b.length : ℚ) /
    ((a.length : ℚ) + (b.length : ℚ))

/-- A Python word character for the `\b\w+\b` tokenizer (ASCII model). -/
def isWordChar (c : Char) : Bool := c.isAlphanum || c = '_'

/-- Accumulating tokenizer: maximal runs of word characters. -/
def tokensAux : List Char → List Char → List String
  | [], cur => if cur.isEmpty then [] else [String.mk cur.reverse]
  | c :: rest, cur =>
      if isWordChar c then tokensAux rest (c :: cur)
      else if cur.isEmpty then tokensAux rest []
      else String.mk cur.reverse :: tokensAux rest []

/-- `extraction/similarity.py` `get_tokens`: the set of `\b\w+\b` matches of
the lower-cased text. -/
def get_tokens (text : String) : Finset String :=
  (tokensAux (pyLower text).toList []).toFinset

/-- Jaccard index of two finite string sets, 0.0 when either is empty. -/
def jaccardSet (A B : Finset String) : ℚ :=
  if A = ∅ ∨ B = ∅ then 0
  else ((A ∩ B).card : ℚ) / ((A ∪ B).card : ℚ)

/-- The literal 0.2, in reduced form so that it evaluates in the kernel. -/
def q_one_fifth : ℚ := ⟨1, 5, by norm_num, by norm_num⟩

/-- The score breakdown returned by `calculate_entity_similarity`
(`{"total", "name", "desc", "keywords"}`). -/
structure SimScore : Type where
  total : ℚ
  name : ℚ
  desc : ℚ
  keywords : ℚ
deriving DecidableEq, Repr

/-- `extraction/similarity.py` `calculate_entity_similarity`. -/
def calculate_entity_similarity (e1 e2 : EntityNode) : SimScore :=
  let name_sim := sm_score (pyLower e1.name).toList (pyLower e2.name).toList
  let desc_sim := jaccardSet (get_tokens e1.description) (get_tokens e2.description)
  let kw_sim := jaccardSet (e1.keywords.map pyLower).toFinset (e2.keywords.map pyLower).toFinset
  { total := name_sim * q_half + desc_sim * q_three_tenths + kw_sim * q_one_fifth,
    name := name_sim, desc := desc_sim, keywords := kw_sim }

/-! ### Ingestion pipeline and merge engine (`storage/sqlite_adapter.py`,
`extraction/extractor.py`, `extraction/synthesis.py`)

uuid4 values are modelled as a threaded natural counter; `datetime.now()` as
an explicit `now` string; the two oracle calls as `Except Unit` parameters
(`.error` = the call raised or returned unparsable output); a possible
sqlite write error as `failAt`, the index of the `INSERT` that raises.  The
sqlite transaction is a copy (`txn`) of the durable database: `commit`
installs it, an exception (`rollback`) discards it. -/

/-- `extraction/models.py` `ExtractionResult`. -/
structure ExtractionResult : Type where
  entities : List ExtractedEntity
  relationships : List ExtractedRelationship := []
deriving DecidableEq, Repr

/-- `extraction/models.py` `SynthesisResult`. -/
structure SynthesisResult : Type where
  new_description : String
  new_keywords : List String
deriving DecidableEq, Repr

/-- A row of the `entities` table. -/
structure EntityRow : Type where
  id : ℕ
  name : String
  type : String
  description : String
  keywords : List String
  source_knowledge_ids : List ℕ
  confidence : ℚ
  doctrinal_context : Option String
  goals : List String
  non_goals : List String
deriving DecidableEq, Repr

/-- A row of the `knowledge` table. -/
structure KnowledgeRow : Type where
  id : ℕ
  content_raw : String
  timestamp : String
  related_entity_ids : List ℕ
deriving DecidableEq, Repr

/-- A row of the `evidence` table. -/
structure EvidenceRow : Type where
  id : ℕ
  source_knowledge_id : ℕ
  text_span : String
deriving DecidableEq, Repr

/-- The durable sqlite database (rows in insertion order; the
`relation_assertions` table has the same columns as the mirror record). -/
structure DB : Type where
  entities : List EntityRow
  knowledge : List KnowledgeRow
  evidence : List EvidenceRow
  relation_assertions : List RelationAssertion
deriving DecidableEq, Repr

/-- The in-memory mirror (`st.session_state`). -/
structure SessionState : Type where
  entities : List (ℕ × EntityNode)
  knowledges : List KnowledgeEntry
  relationship_types : List (ℕ × RelationshipType)
  evidence : List (ℕ × String)
  relation_assertions : List RelationAssertion
deriving DecidableEq, Repr

/-- Durable database + mirror + uuid counter. -/
structure AppState : Type where
  db : DB
  session : SessionState
  counter : ℕ
deriving DecidableEq, Repr

/-- `extraction/extractor.py` `extract_data`: a failed or unparsable
entity-extraction call yields an empty result; an empty entity list skips
the relationship call; a failed relationship-extraction call keeps the
extracted entities and drops only the relationships. -/
def extract_data (entityRes relRes : Except Unit ExtractionResult) : ExtractionResult :=
  match entityRes with
  | Except.error _ => { entities := [], relationships := [] }
  | Except.ok r1 =>
      if r1.entities.isEmpty then { entities := [], relationships := [] }
      else
        match relRes with
        | Except.error _ => { entities := r1.entities, relationships := [] }
        | Except.ok r2 => { entities := r1.entities, relationships := r2.relationships }

/-- `extraction/synthesis.py` `synthesize_entity_info`: on oracle failure,
fall back to the current (master) entity's description and keywords. -/
def synthesize_entity_info (synRes : Except Unit SynthesisResult)
    (current_entity : EntityNode) (_new_info : ExtractedEntity) : SynthesisResult :=
  match synRes with
  | Except.ok r => r
  | Except.error _ =>
      { new_description := current_entity.description,
        new_keywords := current_entity.keywords }

/-- The session `EntityNode` buffered for a freshly inserted entity
(`save_knowledge_flow` step 3). -/
def mkSessionEntity (new_id kid : ℕ) (raw : ExtractedEntity) : EntityNode :=
  { id := new_id, name := raw.name, type := raw.type, description := raw.description,
    keywords := raw.keywords, source_knowledge_ids := [kid],
    doctrinal_context := raw.doctrinal_context, goals := raw.goals,
    non_goals := raw.non_goals }

/-- The `entities` table row inserted for a freshly created entity. -/
def mkEntityRow (new_id kid : ℕ) (raw : ExtractedEntity) : EntityRow :=
  { id := new_id, name := raw.name, type := raw.type, description := raw.description,
    keywords := raw.keywords, source_knowledge_ids := [kid],
    confidence := raw.confidence, doctrinal_context := raw.doctrinal_context,
    goals := raw.goals, non_goals := raw.non_goals }

/-- State threaded through the entity loop of `save_knowledge_flow`. -/
structure EntLoop : Type where
  txn : DB
  wc : ℕ
  counter : ℕ
  final_entity_ids : List ℕ
  buffer : List (ℕ × EntityNode)
  nameMap : String → Option ℕ
  confMap : String → Option ℚ

/-- The entity loop of `save_knowledge_flow` (step 3): always create a new
entity, track the per-run normalized-name → id and → confidence maps
(last write wins), buffer the session object, and append the durable row.
A durable write may raise (`failAt`). -/
def procEnts (failAt : Option ℕ) (kid : ℕ) :
    List ExtractedEntity → EntLoop → Except Unit EntLoop
  | [], s => Except.ok s
  | raw :: rest, s =>
      let norm := normalize_entity_name raw.name
      let new_id := s.counter
      if failAt = some s.wc then Except.error ()
      else
        procEnts failAt kid rest
          { txn := { s.txn with entities := s.txn.entities ++ [mkEntityRow new_id kid raw] },
            wc := s.wc + 1,
            counter := s.counter + 1,
            final_entity_ids := s.final_entity_ids ++ [new_id],
            buffer := s.buffer ++ [(new_id, mkSessionEntity new_id kid raw)],
            nameMap := fun n => if n = norm then some new_id else s.nameMap n,
            confMap := fun n => if n = norm then some raw.confidence else s.confMap n }

/-- Type resolution: first registry entry whose `machine_name` matches
(`save_knowledge_flow` step 4a, dict iteration with `break`). -/
def findType : List (ℕ × RelationshipType) → String → Option (ℕ × RelationshipType)
  | [], _ => none
  | (tid, rt) :: rest, mn => if rt.machine_name = mn then some (tid, rt) else findType rest mn

/-- State threaded through the relationship loop of `save_knowledge_flow`. -/
structure RelLoop : Type where
  txn : DB
  wc : ℕ
  counter : ℕ
  rel_buffer : List RelationAssertion
  ev_buffer : List (ℕ × String)

/-- The relationship loop of `save_knowledge_flow` (step 4): resolve the
type and both endpoints (skip on failure), run the full validation gate
(skip on rejection), compute system confidence, write one Evidence row and
one RelationAssertion row, and buffer the mirror copies.  A missing entity
object for a resolved id would be a Python `AttributeError` inside the
transaction, modelled as `Except.error`. -/
def procRels (failAt : Option ℕ) (kid : ℕ) (now : String)
    (rtypes : List (ℕ × RelationshipType)) (sessionEntities : List (ℕ × EntityNode))
    (buffer : List (ℕ × EntityNode)) (nameMap : String → Option ℕ)
    (confMap : String → Option ℚ) :
    List ExtractedRelationship → RelLoop → Except Unit RelLoop
  | [], s => Except.ok s
  | rel :: rest, s =>
      match findType rtypes rel.machine_name with
      | none => procRels failAt kid now rtypes sessionEntities buffer nameMap confMap rest s
      | some (rel_type_id, rel_type_obj) =>
          let src_norm := normalize_entity_name rel.source_entity
          let tgt_norm := normalize_entity_name rel.target_entity
          match nameMap src_norm with
          | none => procRels failAt kid now rtypes sessionEntities buffer nameMap confMap rest s
          | some src_id =>
            match nameMap tgt_norm with
            | none => procRels failAt kid now rtypes sessionEntities buffer nameMap confMap rest s
            | some tgt_id =>
              let src_ent? :=
                match lookupL src_id buffer with
                | some e => some e
                | none => lookupL src_id sessionEntities
              let tgt_ent? :=
                match lookupL tgt_id buffer with
                | some e => some e
                | none => lookupL tgt_id sessionEntities
              match src_ent? with
              | none => Except.error ()
              | some src_ent =>
                match tgt_ent? with
                | none => Except.error ()
                | some tgt_ent =>
                  if full_relation_validation rel rel_type_obj src_ent tgt_ent = false then
                    procRels failAt kid now rtypes sessionEntities buffer nameMap confMap rest s
                  else
                    let src_conf := (confMap src_norm).getD 1
                    let tgt_conf := (confMap tgt_norm).getD 1
                    let ontology_conf :=
                      calculate_ontology_confidence rel rel_type_obj src_ent tgt_ent
                    let system_conf :=
                      rmin (rmin (rmin rel.confidence src_conf) tgt_conf) ontology_conf
                    let ev_id := s.counter
                    if failAt = some s.wc then Except.error ()
                    else
                      let usage_id := s.counter + 1
                      let ra : RelationAssertion :=
                        { id := usage_id, knowledge_id := kid,
                          relationship_type_id := rel_type_id,
                          source_entity_id := src_id, target_entity_id := tgt_id,
                          semantic_properties := rel.semantic_properties,
                          evidence_ids := [ev_id], axis := rel.axis,
                          polarity := rel.polarity,
                          extraction_confidence := rel.confidence,
                          ontology_confidence := ontology_conf,
                          system_confidence := system_conf,
                          status := "extracted", created_at := some now,
                          usage_context := some rel.usage_context }
                      if failAt = some (s.wc + 1) then Except.error ()
                      else
                        procRels failAt kid now rtypes sessionEntities buffer nameMap confMap
                          rest
                          { txn :=
                              { s.txn with
                                evidence := s.txn.evidence ++
                                  [{ id := ev_id, source_knowledge_id := kid,
                                     text_span := rel.evidence_span }],
                                relation_assertions := s.txn.relation_assertions ++ [ra] },
                            wc := s.wc + 2,
                            counter := s.counter + 2,
                            rel_buffer := s.rel_buffer ++ [ra],
                            ev_buffer := s.ev_buffer ++ [(ev_id, rel.evidence_span)] }

/-- Outcome of one `save_knowledge_flow` call. -/
inductive SaveOutcome : Type
  | noEntities
  | success
  | failure
deriving DecidableEq, Repr

/-- `storage/sqlite_adapter.py` `save_knowledge_flow`: extraction, the
"nothing to ingest" early return, the transactional entity/relationship/
knowledge writes, and — only after commit — the atomic session update.  On
any exception the transaction is rolled back and neither the durable
database nor the mirror changes.  (Quirk preserved from the source: the
mirrored `KnowledgeEntry` keeps its default empty `related_entity_ids`;
only the durable row receives the id list.) -/
def save_knowledge_flow (failAt : Option ℕ) (now : String) (text : String)
    (entityRes relRes : Except Unit ExtractionResult) (st : AppState) :
    AppState × SaveOutcome :=
  let result := extract_data entityRes relRes
  if result.entities.isEmpty then (st, SaveOutcome.noEntities)
  else
    let kid := st.counter
    match procEnts failAt kid result.entities
        { txn := st.db, wc := 0, counter := st.counter + 1, final_entity_ids := [],
          buffer := [], nameMap := fun _ => none, confMap := fun _ => none } with
    | Except.error _ => (st, SaveOutcome.failure)
    | Except.ok es =>
        match procRels failAt kid now st.session.relationship_types st.session.entities
            es.buffer es.nameMap es.confMap result.relationships
            { txn := es.txn, wc := es.wc, counter := es.counter, rel_buffer := [],
              ev_buffer := [] } with
        | Except.error _ => (st, SaveOutcome.failure)
        | Except.ok rs =>
            if failAt = some rs.wc then (st, SaveOutcome.failure)
            else
              ({ db := { rs.txn with knowledge := rs.txn.knowledge ++
                    [{ id := kid, content_raw := text, timestamp := now,
                       related_entity_ids := es.final_entity_ids }] },
                 session :=
                   { entities := alistUpdate st.session.entities es.buffer,
                     knowledges := st.session.knowledges ++
                       [{ id := kid, content_raw := text, timestamp := now }],
                     relationship_types := st.session.relationship_types,
                     evidence := alistUpdate st.session.evidence rs.ev_buffer,
                     relation_assertions :=
                       st.session.relation_assertions ++ rs.rel_buffer },
                 counter := rs.counter }, SaveOutcome.success)

/-- Endpoint rewrite applied to one assertion by the merge
(both the `UPDATE ... WHERE source_entity_id` / `target_entity_id`
statements and the session loop). -/
def repoint (duplicate_id master_id : ℕ) (r : RelationAssertion) : RelationAssertion :=
  let r1 := if r.source_entity_id = duplicate_id then
    { r with source_entity_id := master_id } else r
  if r1.target_entity_id = duplicate_id then
    { r1 with target_entity_id := master_id } else r1

/-- `storage/sqlite_adapter.py` `perform_entity_merge`: synthesize (with
fallback), repoint assertion endpoints, union the source knowledge ids,
overwrite the master entity, delete the duplicate — durably, then in the
mirror.  `none` when either id is not in the mirror (a Python `KeyError`
before any write). -/
def perform_entity_merge (synRes : Except Unit SynthesisResult)
    (master_id duplicate_id : ℕ) (st : AppState) :
    Option (AppState × SynthesisResult) :=
  match lookupL master_id st.session.entities, lookupL duplicate_id st.session.entities with
  | some e1, some e2 =>
      let e2_adapter : ExtractedEntity :=
        { name := e2.name, type := e2.type, description := e2.description,
          keywords := e2.keywords, confidence := 1 }
      let syn := synthesize_entity_info synRes e1 e2_adapter
      let rels1 := st.db.relation_assertions.map (fun r =>
        if r.source_entity_id = duplicate_id then
          { r with source_entity_id := master_id } else r)
      let rels2 := rels1.map (fun r =>
        if r.target_entity_id = duplicate_id then
          { r with target_entity_id := master_id } else r)
      let db1 := { st.db with relation_assertions := rels2 }
      let new_src_ids := (e1.source_knowledge_ids ++ e2.source_knowledge_ids).dedup
      let updRow := fun (row : EntityRow) =>
        if row.id = master_id then
          { row with description := syn.new_description, keywords := syn.new_keywords, source_knowledge_ids := new_src_ids }
        else row
      let db2 := { db1 with entities := db1.entities.map updRow }
      let db3 := { db2 with entities := db2.entities.filter (fun row => row.id ≠ duplicate_id) }
      let e1' := { e1 with description := syn.new_description, keywords := syn.new_keywords, source_knowledge_ids := new_src_ids }
      some ({ db := db3,
              session :=
                { st.session with
                  entities := alistDel duplicate_id (alistSet master_id e1' st.session.entities),
                  relation_assertions :=
                    st.session.relation_assertions.map (repoint duplicate_id master_id) },
              counter := st.counter }, syn)
  | _, _ => none

/-- The id and candidate of the LAST extracted entity (ids minted from `c`)
whose normalized name is `nm` — the value the per-run name map resolves to. -/
def lastPick : List ExtractedEntity → ℕ → String → Option (ℕ × ExtractedEntity)
  | [], _, _ => none
  | e :: rest, c, nm =>
      match lastPick rest (c + 1) nm with
      | some x => some x
      | none =>
          if nm = normalize_entity_name e.name then some (c, e) else none

/-- The buffered session nodes of a run, in creation order. -/
def mintedNodes (kid : ℕ) : ℕ → List ExtractedEntity → List (ℕ × EntityNode)
  | _, [] => []
  | c, e :: rest => (c, mkSessionEntity c kid e) :: mintedNodes kid (c + 1) rest

/-- The durable entity rows of a run, in creation order. -/
def mintedRows (kid : ℕ) : ℕ → List ExtractedEntity → List EntityRow
  | _, [] => []
  | c, e :: rest => mkEntityRow c kid e :: mintedRows kid (c + 1) rest

/-- How one buffered `RelationAssertion` of a run is built: from some
candidate `rel` whose type resolves to `(rtid, rt)`, whose two endpoints
resolve through the per-run name map to entities admitted by the full
validation gate, with the confidences computed exactly as in
`save_knowledge_flow` step 4d. -/
def RaSpec (kid : ℕ) (now : String) (rtypes : List (ℕ × RelationshipType))
    (sessionEntities buffer : List (ℕ × EntityNode))
    (nameMap : String → Option ℕ) (confMap : String → Option ℚ)
    (rels : List ExtractedRelationship) (ra : RelationAssertion) : Prop :=
  ∃ rel ∈ rels, ∃ rtid rt src_id tgt_id src_ent tgt_ent ev_id,
    findType rtypes rel.machine_name = some (rtid, rt) ∧
    nameMap (normalize_entity_name rel.source_entity) = some src_id ∧
    nameMap (normalize_entity_name rel.target_entity) = some tgt_id ∧
    (match lookupL src_id buffer with
     | some e => some e
     | none => lookupL src_id sessionEntities) = some src_ent ∧
    (match lookupL tgt_id buffer with
     | some e => some e
     | none => lookupL tgt_id sessionEntities) = some tgt_ent ∧
    full_relation_validation rel rt src_ent tgt_ent = true ∧
    ra = { id := ev_id + 1, knowledge_id := kid, relationship_type_id := rtid,
           source_entity_id := src_id, target_entity_id := tgt_id,
           semantic_properties := rel.semantic_properties, evidence_ids := [ev_id],
           axis := rel.axis, polarity := rel.polarity,
           extraction_confidence := rel.confidence,
           ontology_confidence := calculate_ontology_confidence rel rt src_ent tgt_ent,
           system_confidence :=
             rmin (rmin (rmin rel.confidence
                 ((confMap (normalize_entity_name rel.source_entity)).getD 1))
               ((confMap (normalize_entity_name rel.target_entity)).getD 1))
               (calculate_ontology_confidence rel rt src_ent tgt_ent),
           status := "extracted", created_at := some now,
           usage_context := some rel.usage_context }

/-! ### Concrete inputs used by counterexamples and witnesses -/

/-- Entity named "ab" with empty description and keywords. -/
def simE1 : EntityNode :=
  { id := 11, name := "ab", type := "Concept", description := "", keywords := [] }

/-- Entity named "bacb" with empty description and keywords. -/
def simE2 : EntityNode :=
  { id := 12, name := "bacb", type := "Concept", description := "", keywords := [] }

/-- The seeded `teaches` relationship type (sqlite_adapter.py defaults). -/
def rtTeaches : RelationshipType :=
  { id := some 100, machine_name := "teaches", description := "Didactic component",
    category := "social" }

/-- A `teaches` candidate whose source is a Concept (spec §8 third bullet). -/
def relTeaches : ExtractedRelationship :=
  { machine_name := "teaches", source_entity := "Logic", target_entity := "Alice",
    semantic_properties := [], usage_context := "observation",
    evidence_span := "logic teaches alice well", confidence := q_nine_tenths }

/-- A Concept-typed source entity. -/
def srcConcept : EntityNode :=
  { id := 1, name := "Logic", type := "Concept", description := "the study of reasoning",
    keywords := ["reasoning"] }

/-- A Person-typed target entity. -/
def tgtPerson : EntityNode :=
  { id := 2, name := "Alice", type := "Person", description := "a person", keywords := [] }

/-- A deterministic relationship type (for the `probability` constraint). -/
def rtDet : RelationshipType :=
  { id := some 101, machine_name := "associated_with", description := "assoc",
    category := "associative", deterministic := true }

/-- A candidate declaring `probability = 1.5` (numeric, not equal to 1.0). -/
def relProbHigh : ExtractedRelationship :=
  { machine_name := "associated_with", source_entity := "Alpha", target_entity := "Beta",
    semantic_properties := [("probability", SemValue.num q_three_halves)],
    usage_context := "observation",
    evidence_span := "alpha goes with beta", confidence := 1 }

/-- A candidate declaring `probability = 0.5` (numeric, below 1.0). -/
def relProbLow : ExtractedRelationship :=
  { machine_name := "associated_with", source_entity := "Alpha", target_entity := "Beta",
    semantic_properties := [("probability", SemValue.num q_half)],
    usage_context := "observation",
    evidence_span := "alpha goes with beta", confidence := 1 }

/-- A plain Object-typed entity. -/
def entA : EntityNode :=
  { id := 3, name := "Alpha", type := "Object", description := "", keywords := [] }

/-- A second plain Object-typed entity. -/
def entB : EntityNode :=
  { id := 4, name := "Beta", type := "Object", description := "", keywords := [] }

/-- The seeded `is_a` relationship type. -/
def rtIsA : RelationshipType :=
  { id := some 102, machine_name := "is_a",
    description := "Hierarchical classification", category := "hierarchical" }

/-- An `is_a` candidate whose evidence has no definitional phrasing. -/
def relIsA : ExtractedRelationship :=
  { machine_name := "is_a", source_entity := "Alpha", target_entity := "Beta",
    semantic_properties := [], usage_context := "observation",
    evidence_span := "alpha resembles beta", confidence := 1 }

/-- Extracted entity "Alice" (Person, confidence 0.9). -/
def ibE1 : ExtractedEntity :=
  { name := "Alice", type := "Person", description := "teacher", keywords := ["k1"],
    confidence := q_nine_tenths }

/-- Extracted entity " alice " — same normalized name as `ibE1`
(Concept, confidence 0.5). -/
def ibE2 : ExtractedEntity :=
  { name := " alice ", type := "Concept", description := "other", keywords := [],
    confidence := q_half }

/-- Extracted entity "Math" (Concept). -/
def ibE3 : ExtractedEntity :=
  { name := "Math", type := "Concept", description := "subject", keywords := [],
    confidence := 1 }

/-- A `teaches` candidate relationship between "ALICE" and "math". -/
def ibRel : ExtractedRelationship :=
  { machine_name := "teaches", source_entity := "ALICE", target_entity := "math",
    semantic_properties := [], usage_context := "observation",
    evidence_span := "alice teaches math", confidence := 1 }

/-- An extraction result with a duplicated normalized entity name. -/
def ibRes : ExtractionResult :=
  { entities := [ibE1, ibE2, ibE3], relationships := [ibRel] }

/-- A small initial application state (empty stores, a seeded `teaches`
registry entry, uuid counter at 1000). -/
def ibSt : AppState :=
  { db := { entities := [], knowledge := [], evidence := [], relation_assertions := [] },
    session := { entities := [], knowledges := [], relationship_types := [(77, rtTeaches)],
                 evidence := [], relation_assertions := [] },
    counter := 1000 }

/-- Master entity for the merge scenario (keyword "k1", source knowledge 50). -/
def mgE1 : EntityNode :=
  { id := 1, name := "Alice", type := "Person", description := "master desc",
    keywords := ["k1"], source_knowledge_ids := [50] }

/-- Duplicate entity for the merge scenario (keyword "k2", source knowledge 51). -/
def mgE2 : EntityNode :=
  { id := 2, name := "alice", type := "Person", description := "dup desc",
    keywords := ["k2"], source_knowledge_ids := [51] }

/-- A relation assertion from the master (id 1) to the duplicate (id 2). -/
def mgRa : RelationAssertion :=
  { id := 9, knowledge_id := 50, relationship_type_id := 77,
    source_entity_id := 1, target_entity_id := 2 }

/-- Durable row for the master entity of the merge scenario. -/
def mgRow1 : EntityRow :=
  { id := 1, name := "Alice", type := "Person", description := "master desc",
    keywords := ["k1"], source_knowledge_ids := [50], confidence := 1,
    doctrinal_context := none, goals := [], non_goals := [] }

/-- Durable row for the duplicate entity of the merge scenario. -/
def mgRow2 : EntityRow :=
  { id := 2, name := "alice", type := "Person", description := "dup desc",
    keywords := ["k2"], source_knowledge_ids := [51], confidence := 1,
    doctrinal_context := none, goals := [], non_goals := [] }

/-- Application state for the merge scenario: entities 1 and 2 and an
assertion 1 → 2, mirrored and durable. -/
def mgSt : AppState :=
  { db := { entities := [mgRow1, mgRow2], knowledge := [], evidence := [],
            relation_assertions := [mgRa] },
    session := { entities := [(1, mgE1), (2, mgE2)], knowledges := [],
                 relationship_types := [(77, rtTeaches)], evidence := [],
                 relation_assertions := [mgRa] },
    counter := 100 }

/-- Every ontology rule returns a score in `[0, 1]`. -/
def ruleScoreOk (r : OntRule) : Prop :=
  ∀ rel rt s t, 0 ≤ (r rel rt s t).1 ∧ (r rel rt s t).1 ≤ 1

/-- Every ontology rule returns only the scores 0 or 1 when it is a hard
constraint. -/
def ruleZeroOne (r : OntRule) : Prop :=
  ∀ rel rt s t, (r rel rt s t).1 = 0 ∨ (r rel rt s t).1 = 1

/-! ## Theorems -/

theorem rmin_eq_min (a b : ℚ) : rmin a b = min a b := by
  unfold rmin
  rw [min_def]

theorem q_half_eq : q_half = 1/2 := by
  rw [q_half, Rat.mk'_eq_divInt, Rat.divInt_eq_div]
  norm_num

theorem q_three_tenths_eq : q_three_tenths = 3/10 := by
  rw [q_three_tenths, Rat.mk'_eq_divInt, Rat.divInt_eq_div]
  norm_num

theorem q_three_fifths_eq : q_three_fifths = 3/5 := by
  rw [q_three_fifths, Rat.mk'_eq_divInt, Rat.divInt_eq_div]
  norm_num

theorem q_nine_tenths_eq : q_nine_tenths = 9/10 := by
  rw [q_nine_tenths, Rat.mk'_eq_divInt, Rat.divInt_eq_div]
  norm_num

theorem q_three_halves_eq : q_three_halves = 3/2 := by
  rw [q_three_halves, Rat.mk'_eq_divInt, Rat.divInt_eq_div]
  norm_num

theorem r1_zero_one : ruleZeroOne r1_instance_target_concept := by
  intro rel rt s t
  unfold r1_instance_target_concept
  split_ifs <;> simp

theorem r2_zero_one : ruleZeroOne r2_subclass_concept := by
  intro rel rt s t
  unfold r2_subclass_concept
  split_ifs <;> simp

theorem r5_zero_one : ruleZeroOne r5_deterministic_prob := by
  intro rel rt s t
  unfold r5_deterministic_prob
  split_ifs with h
  · cases hv : lookupL "probability" rel.semantic_properties with
    | none => simp
    | some v =>
        cases v with
        | num q => by_cases hq : q < 1 <;> simp [hq]
        | str s2 => simp
  · simp

theorem r6_zero_one : ruleZeroOne r6_temporal_lag := by
  intro rel rt s t
  unfold r6_temporal_lag
  split_ifs <;> simp

theorem r10_zero_one : ruleZeroOne r10_hypothesis_deterministic := by
  intro rel rt s t
  unfold r10_hypothesis_deterministic
  split_ifs <;> simp

theorem constraints_zero_one : ∀ r ∈ ONTOLOGY_CONSTRAINTS, ruleZeroOne r := by
  intro r hr
  simp only [ONTOLOGY_CONSTRAINTS, List.mem_cons, List.not_mem_nil, or_false] at hr
  rcases hr with h | h | h | h | h <;> subst h
  · exact r1_zero_one
  · exact r2_zero_one
  · exact r5_zero_one
  · exact r6_zero_one
  · exact r10_zero_one

theorem constraints_score_ok : ∀ r ∈ ONTOLOGY_CONSTRAINTS, ruleScoreOk r := by
  intro r hr rel rt s t
  rcases constraints_zero_one r hr rel rt s t with h | h <;> rw [h] <;> norm_num

theorem heuristics_score_ok : ∀ r ∈ HEURISTIC_RULES, ruleScoreOk r := by
  intro r hr
  simp only [HEURISTIC_RULES, List.mem_cons, List.not_mem_nil, or_false] at hr
  rcases hr with h | h | h | h | h <;> subst h <;> intro rel rt s t <;>
    simp only [r3_causal_target_person, r7_concept_act, r8_teaches_agent,
      r4_imperative_evidence, r11_is_a_evidence_check] <;>
    split_ifs <;> norm_num [q_half_eq, q_three_tenths_eq]

theorem evidence_score_ok : ∀ r ∈ EVIDENCE_RULES, ruleScoreOk r := by
  intro r hr
  simp only [EVIDENCE_RULES, List.mem_singleton] at hr
  subst hr
  intro rel rt s t
  simp only [r9_evidence_names]
  split_ifs <;> norm_num [q_three_fifths_eq]

theorem fold_rules_le_init (rel : ExtractedRelationship) (rt : RelationshipType)
    (s t : EntityNode) (rs : List OntRule) (score : ℚ) :
    fold_rules rel rt s t rs score ≤ score := by
  induction rs generalizing score with
  | nil => simp [fold_rules]
  | cons r rs ih =>
      simp only [fold_rules]
      refine le_trans (ih _) ?_
      split_ifs with h
      · rw [rmin_eq_min]; exact min_le_left _ _
      · exact le_refl _

theorem fold_rules_nonneg (rel : ExtractedRelationship) (rt : RelationshipType)
    (s t : EntityNode) :
    ∀ (rs : List OntRule) (score : ℚ), (∀ r ∈ rs, ruleScoreOk r) → 0 ≤ score →
      0 ≤ fold_rules rel rt s t rs score := by
  intro rs
  induction rs with
  | nil => intro score _ hs; simpa [fold_rules] using hs
  | cons r rs ih =>
      intro score hok hs
      simp only [fold_rules]
      refine ih _ (fun r hr => hok r (List.mem_cons_of_mem _ hr)) ?_
      have h0 := (hok r (List.mem_cons_self _ _) rel rt s t).1
      split_ifs with h
      · rw [rmin_eq_min]; exact le_min hs h0
      · exact hs

theorem fold_rules_le_zero_of_mem (rel : ExtractedRelationship) (rt : RelationshipType)
    (s t : EntityNode) (r : OntRule) (h0 : (r rel rt s t).1 = 0) :
    ∀ (rs : List OntRule) (score : ℚ), r ∈ rs →
      fold_rules rel rt s t rs score ≤ 0 := by
  intro rs
  induction rs with
  | nil => intro score hr; cases hr
  | cons a as ih =>
      intro score hr
      simp only [fold_rules]
      rcases List.mem_cons.mp hr with heq | hmem
      · subst heq
        rw [h0]
        have hlt : (0 : ℚ) < 1 := by norm_num
        simp only [hlt, if_true]
        refine le_trans (fold_rules_le_init _ _ _ _ _ _) ?_
        rw [rmin_eq_min]
        exact min_le_right _ _
      · exact ih _ hmem

theorem run_constraints_le_init (rel : ExtractedRelationship) (rt : RelationshipType)
    (s t : EntityNode) :
    ∀ (rs : List OntRule) (score sc : ℚ),
      run_constraints rel rt s t rs score = some sc → sc ≤ score := by
  intro rs
  induction rs with
  | nil =>
      intro score sc h
      simp only [run_constraints, Option.some.injEq] at h
      exact le_of_eq h.symm
  | cons r rs ih =>
      intro score sc h
      simp only [run_constraints] at h
      split_ifs at h with h1 h2
      · exact le_trans (ih _ _ h) (by rw [rmin_eq_min]; exact min_le_left _ _)
      · exact ih _ _ h

theorem run_constraints_nonneg (rel : ExtractedRelationship) (rt : RelationshipType)
    (s t : EntityNode) :
    ∀ (rs : List OntRule) (score sc : ℚ), (∀ r ∈ rs, ruleScoreOk r) → 0 ≤ score →
      run_constraints rel rt s t rs score = some sc → 0 ≤ sc := by
  intro rs
  induction rs with
  | nil =>
      intro score sc _ hs h
      simp only [run_constraints, Option.some.injEq] at h
      rw [← h]; exact hs
  | cons r rs ih =>
      intro score sc hok hs h
      simp only [run_constraints] at h
      have h0 := (hok r (List.mem_cons_self _ _) rel rt s t).1
      split_ifs at h with h1 h2
      · refine ih _ _ (fun r hr => hok r (List.mem_cons_of_mem _ hr)) ?_ h
        rw [rmin_eq_min]; exact le_min hs h0
      · exact ih _ _ (fun r hr => hok r (List.mem_cons_of_mem _ hr)) hs h

theorem run_constraints_none_of_zero (rel : ExtractedRelationship) (rt : RelationshipType)
    (s t : EntityNode) :
    ∀ (rs : List OntRule) (score : ℚ), (∀ r ∈ rs, ruleZeroOne r) →
      (∃ r ∈ rs, (r rel rt s t).1 = 0) →
      run_constraints rel rt s t rs score = none := by
  intro rs
  induction rs with
  | nil => intro score _ hz; rcases hz with ⟨r, hr, _⟩; cases hr
  | cons a as ih =>
      intro score h01 hz
      simp only [run_constraints]
      by_cases ha : (a rel rt s t).1 = 0
      · simp [ha]
      · rw [if_neg ha]
        refine ih _ (fun r hr => h01 r (List.mem_cons_of_mem _ hr)) ?_
        rcases hz with ⟨r, hr, hr0⟩
        rcases List.mem_cons.mp hr with heq | hmem
        · subst heq; exact absurd hr0 ha
        · exact ⟨r, hmem, hr0⟩

theorem calc_conf_nonneg (rel : ExtractedRelationship) (rt : RelationshipType)
    (s t : EntityNode) : 0 ≤ calculate_ontology_confidence rel rt s t := by
  unfold calculate_ontology_confidence
  cases h : run_constraints rel rt s t ONTOLOGY_CONSTRAINTS 1 with
  | none => norm_num
  | some sc =>
      have hsc : 0 ≤ sc :=
        run_constraints_nonneg rel rt s t _ 1 sc constraints_score_ok (by norm_num) h
      exact fold_rules_nonneg rel rt s t _ _ evidence_score_ok
        (fold_rules_nonneg rel rt s t _ _ heuristics_score_ok hsc)

theorem calc_conf_le_one (rel : ExtractedRelationship) (rt : RelationshipType)
    (s t : EntityNode) : calculate_ontology_confidence rel rt s t ≤ 1 := by
  unfold calculate_ontology_confidence
  cases h : run_constraints rel rt s t ONTOLOGY_CONSTRAINTS 1 with
  | none => norm_num
  | some sc =>
      have hsc : sc ≤ 1 := run_constraints_le_init rel rt s t _ 1 sc h
      refine le_trans (fold_rules_le_init _ _ _ _ _ _) ?_
      exact le_trans (fold_rules_le_init _ _ _ _ _ _) hsc

theorem calc_eq_zero_of_heuristic_zero (rel : ExtractedRelationship)
    (rt : RelationshipType) (s t : EntityNode) (r : OntRule)
    (hr : r ∈ HEURISTIC_RULES) (h0 : (r rel rt s t).1 = 0) :
    calculate_ontology_confidence rel rt s t = 0 := by
  unfold calculate_ontology_confidence
  cases h : run_constraints rel rt s t ONTOLOGY_CONSTRAINTS 1 with
  | none => rfl
  | some sc =>
      have hsc : 0 ≤ sc :=
        run_constraints_nonneg rel rt s t _ 1 sc constraints_score_ok (by norm_num) h
      have hle : fold_rules rel rt s t HEURISTIC_RULES sc ≤ 0 :=
        fold_rules_le_zero_of_mem rel rt s t r h0 _ sc hr
      have hge : 0 ≤ fold_rules rel rt s t HEURISTIC_RULES sc :=
        fold_rules_nonneg rel rt s t _ _ heuristics_score_ok hsc
      have hmid : fold_rules rel rt s t HEURISTIC_RULES sc = 0 := le_antisymm hle hge
      show fold_rules rel rt s t EVIDENCE_RULES (fold_rules rel rt s t HEURISTIC_RULES sc) = 0
      rw [hmid]
      exact le_antisymm
        (fold_rules_le_init rel rt s t EVIDENCE_RULES 0)
        (fold_rules_nonneg rel rt s t _ _ evidence_score_ok (le_refl 0))

/-- C5: a candidate with machine-name `is_a` whose lowercased evidence span
contains none of the definitional phrases gets ontology confidence exactly
0.0 (a hard rejection despite `r11` living in the heuristic tier, because the
aggregate is a running minimum) and is rejected by `full_relation_validation`
(the `block_invalid_is_a` pre-validation guard), regardless of the other rule
scores. -/
theorem c5_is_a_hard_rejection (rel : ExtractedRelationship) (rt : RelationshipType)
    (s t : EntityNode)
    (hmn : rel.machine_name = "is_a") (hrt : rt.machine_name = "is_a")
    (hev : ∀ w ∈ type_words, substrB w (pyLower rel.evidence_span) = false) :
    calculate_ontology_confidence rel rt s t = 0 ∧
    full_relation_validation rel rt s t = false := by
  have hany : type_words.any (fun w => substrB w (pyLower rel.evidence_span)) = false := by
    simp only [List.any_eq_false]
    intro w hw
    simp [hev w hw]
  have hr11 : (r11_is_a_evidence_check rel rt s t).1 = 0 := by
    simp [r11_is_a_evidence_check, hrt, hany]
  have hcalc : calculate_ontology_confidence rel rt s t = 0 :=
    calc_eq_zero_of_heuristic_zero rel rt s t _ (by simp [HEURISTIC_RULES]) hr11
  refine ⟨hcalc, ?_⟩
  have hguard : block_invalid_is_a rel = false := by
    simp [block_invalid_is_a, hmn, hany]
  have hall : run_all_validation_rules rel = false := by
    simp [run_all_validation_rules, VALIDATION_RULES, hguard]
  simp [full_relation_validation, hall]

/-- C5 witness: the concrete `is_a` candidate with non-definitional evidence
"alpha resembles beta" is scored 0.0 and rejected. -/
theorem c5_is_a_hard_rejection_witness :
    calculate_ontology_confidence relIsA rtIsA entA entB = 0 ∧
    full_relation_validation relIsA rtIsA entA entB = false :=
  c5_is_a_hard_rejection relIsA rtIsA entA entB rfl rfl (by decide)

/-- C4 (amended): for a `teaches` candidate (deterministic=false, category not
`temporal`) with a Concept source, the 0.5 heuristic penalty applies and the
final ontology confidence is exactly 0.5; but since the gate only rejects
confidence strictly below 0.5, `full_relation_validation` ADMITS the
candidate whenever the pre-validation guards and the schema check pass. -/
theorem c4_teaches_concept_admitted (rel : ExtractedRelationship)
    (rt : RelationshipType) (s t : EntityNode)
    (hmn : rt.machine_name = "teaches") (hdet : rt.deterministic = false)
    (hcat : rt.category ≠ "temporal") (hsrc : s.type = "Concept")
    (hguards : run_all_validation_rules rel = true)
    (hschema : validate_extracted_relationship rel rt s t = true) :
    calculate_ontology_confidence rel rt s t = 1/2 ∧
    full_relation_validation rel rt s t = true := by
  have e1 : r1_instance_target_concept rel rt s t = (1, none) := by
    simp [r1_instance_target_concept, hmn]
  have e2 : r2_subclass_concept rel rt s t = (1, none) := by
    simp [r2_subclass_concept, hmn]
  have e5 : r5_deterministic_prob rel rt s t = (1, none) := by
    simp [r5_deterministic_prob, hdet]
  have e6 : r6_temporal_lag rel rt s t = (1, none) := by
    simp [r6_temporal_lag, hcat]
  have e10 : r10_hypothesis_deterministic rel rt s t = (1, none) := by
    simp [r10_hypothesis_deterministic, hdet]
  have hrc : run_constraints rel rt s t ONTOLOGY_CONSTRAINTS 1 = some 1 := by
    norm_num [ONTOLOGY_CONSTRAINTS, run_constraints, e1, e2, e5, e6, e10]
  have e7 : r7_concept_act rel rt s t = (q_half, some "Concept cannot Act (Heuristic)") := by
    simp [r7_concept_act, hsrc, hmn]
  have e8 : r8_teaches_agent rel rt s t = (q_half, some "Teacher must be Agent (Heuristic)") := by
    simp [r8_teaches_agent, hsrc, hmn]
  have e4 : r4_imperative_evidence rel rt s t = (1, none) := by
    simp [r4_imperative_evidence, hmn]
  have e11 : r11_is_a_evidence_check rel rt s t = (1, none) := by
    simp [r11_is_a_evidence_check, hmn]
  have hheur : fold_rules rel rt s t HEURISTIC_RULES 1 = 1/2 := by
    by_cases h3 : rt.category = "causal" ∧ t.type = "Person"
    · have e3 : r3_causal_target_person rel rt s t =
          (q_half, some "Causal target Person (Heuristic)") := by
        simp [r3_causal_target_person, h3]
      norm_num [HEURISTIC_RULES, fold_rules, e3, e7, e8, e4, e11, rmin, q_half_eq]
    · have e3 : r3_causal_target_person rel rt s t = (1, none) := by
        simp only [r3_causal_target_person, if_neg h3]
      norm_num [HEURISTIC_RULES, fold_rules, e3, e7, e8, e4, e11, rmin, q_half_eq]
  have hcalc : calculate_ontology_confidence rel rt s t = 1/2 := by
    unfold calculate_ontology_confidence
    rw [hrc]
    show fold_rules rel rt s t EVIDENCE_RULES (fold_rules rel rt s t HEURISTIC_RULES 1) = 1/2
    rw [hheur]
    by_cases h9 : substrB (pyLower s.name) (pyLower rel.evidence_span) ∧
        substrB (pyLower t.name) (pyLower rel.evidence_span)
    · have e9 : r9_evidence_names rel rt s t = (1, none) := by
        simp only [r9_evidence_names]
        rw [if_pos h9]
      norm_num [EVIDENCE_RULES, fold_rules, e9, rmin, q_half_eq, q_three_fifths_eq]
    · have e9 : r9_evidence_names rel rt s t =
          (q_three_fifths, some "Evidence missing entity names") := by
        simp only [r9_evidence_names]
        rw [if_neg h9]
      norm_num [EVIDENCE_RULES, fold_rules, e9, rmin, q_half_eq, q_three_fifths_eq]
  refine ⟨hcalc, ?_⟩
  norm_num [full_relation_validation, hguards, hcalc, hschema, q_half_eq]

/-- C4 counterexample: the spec scenario (type `teaches`, source Concept,
no hard constraint, no guard) is NOT rejected — the concrete candidate is
admitted with ontology confidence exactly 0.5. -/
theorem c4_scenario_is_admitted :
    full_relation_validation relTeaches rtTeaches srcConcept tgtPerson = true ∧
    calculate_ontology_confidence relTeaches rtTeaches srcConcept tgtPerson = 1/2 := by
  refine ⟨by decide, ?_⟩
  rw [← q_half_eq]
  decide

/-- C4 witness: the amended theorem instantiated at the concrete scenario. -/
theorem c4_teaches_concept_admitted_witness :
    calculate_ontology_confidence relTeaches rtTeaches srcConcept tgtPerson = 1/2 ∧
    full_relation_validation relTeaches rtTeaches srcConcept tgtPerson = true :=
  c4_teaches_concept_admitted relTeaches rtTeaches srcConcept tgtPerson rfl rfl
    (by decide) rfl (by decide) (by decide)

/-- C6 (amended): the deterministic-probability hard constraint rejects
exactly when the declared `probability` is numeric and strictly below 1.0:
then ontology confidence is 0.0 and the candidate is not admitted. -/
theorem c6_deterministic_low_prob_rejected (rel : ExtractedRelationship)
    (rt : RelationshipType) (s t : EntityNode) (q : ℚ)
    (hdet : rt.deterministic = true)
    (hp : lookupL "probability" rel.semantic_properties = some (SemValue.num q))
    (hq : q < 1) :
    calculate_ontology_confidence rel rt s t = 0 ∧
    full_relation_validation rel rt s t = false := by
  have hr5 : (r5_deterministic_prob rel rt s t).1 = 0 := by
    simp [r5_deterministic_prob, hdet, hp, hq]
  have hrc : run_constraints rel rt s t ONTOLOGY_CONSTRAINTS 1 = none :=
    run_constraints_none_of_zero rel rt s t _ 1 constraints_zero_one
      ⟨r5_deterministic_prob, by simp [ONTOLOGY_CONSTRAINTS], hr5⟩
  have hcalc : calculate_ontology_confidence rel rt s t = 0 := by
    unfold calculate_ontology_confidence
    rw [hrc]
  refine ⟨hcalc, ?_⟩
  by_cases hg : run_all_validation_rules rel = false
  · simp [full_relation_validation, hg]
  · have hg' : run_all_validation_rules rel = true := by
      revert hg; cases run_all_validation_rules rel <;> simp
    norm_num [full_relation_validation, hg', hcalc, q_half_eq]

/-- C6 counterexample: a deterministic type with a declared numeric
`probability = 1.5` (not equal to 1.0) is NOT rejected — ontology confidence
is 1.0 and the candidate is admitted. -/
theorem c6_prob_above_one_not_rejected :
    calculate_ontology_confidence relProbHigh rtDet entA entB = 1 ∧
    full_relation_validation relProbHigh rtDet entA entB = true := by
  constructor <;> decide

/-- C6 witness: the amended theorem instantiated at `probability = 0.5`. -/
theorem c6_deterministic_low_prob_rejected_witness :
    calculate_ontology_confidence relProbLow rtDet entA entB = 0 ∧
    full_relation_validation relProbLow rtDet entA entB = false :=
  c6_deterministic_low_prob_rejected relProbLow rtDet entA entB q_half rfl rfl
    (by norm_num [q_half_eq])

/-! ### Similarity scorer lemmas -/

theorem lce_le_left : ∀ x y : List Char, lce x y ≤ x.length := by
  intro x
  induction x with
  | nil => intro y; cases y <;> simp [lce]
  | cons a as ih =>
      intro y
      cases y with
      | nil => simp [lce]
      | cons b bs =>
          simp only [lce, List.length_cons]
          split_ifs with h
          · have := ih bs; omega
          · omega

theorem lce_le_right : ∀ x y : List Char, lce x y ≤ y.length := by
  intro x
  induction x with
  | nil => intro y; cases y <;> simp [lce]
  | cons a as ih =>
      intro y
      cases y with
      | nil => simp [lce]
      | cons b bs =>
          simp only [lce, List.length_cons]
          split_ifs with h
          · have := ih bs; omega
          · omega

theorem lce_take : ∀ x y : List Char, x.take (lce x y) = y.take (lce x y) := by
  intro x
  induction x with
  | nil => intro y; cases y <;> simp [lce]
  | cons a as ih =>
      intro y
      cases y with
      | nil => simp [lce]
      | cons b bs =>
          simp only [lce]
          split_ifs with h
          · subst h; simp [List.take_succ_cons, ih bs]
          · simp

theorem lce_self : ∀ x : List Char, lce x x = x.length := by
  intro x
  induction x with
  | nil => simp [lce]
  | cons a as ih => simp [lce, ih]

theorem extLen_le_left (a b : List Char) (ahi bhi i j : ℕ) :
    extLen a b ahi bhi i j ≤ ahi - i := by
  unfold extLen
  refine le_trans (lce_le_left _ _) ?_
  rw [List.length_take]
  exact min_le_left _ _

theorem extLen_le_right (a b : List Char) (ahi bhi i j : ℕ) :
    extLen a b ahi bhi i j ≤ bhi - j := by
  unfold extLen
  refine le_trans (lce_le_right _ _) ?_
  rw [List.length_take]
  exact min_le_left _ _

theorem extLen_slice_eq (a b : List Char) (ahi bhi i j k : ℕ)
    (hk : extLen a b ahi bhi i j = k) :
    (a.drop i).take k = (b.drop j).take k := by
  have h1 : k ≤ ahi - i := hk ▸ extLen_le_left a b ahi bhi i j
  have h2 : k ≤ bhi - j := hk ▸ extLen_le_right a b ahi bhi i j
  have := lce_take ((a.drop i).take (ahi - i)) ((b.drop j).take (bhi - j))
  rw [extLen] at hk
  rw [hk] at this
  rwa [List.take_take, List.take_take, min_eq_left h1, min_eq_left h2] at this

theorem foldr_max_le {l : List ℕ} {init c : ℕ} (h : ∀ x ∈ l, x ≤ c) (hi : init ≤ c) :
    l.foldr max init ≤ c := by
  induction l with
  | nil => simpa using hi
  | cons a l ih =>
      simp only [List.foldr_cons]
      have ha := h a (List.mem_cons_self _ _)
      have := ih (fun x hx => h x (List.mem_cons_of_mem _ hx))
      omega

theorem le_foldr_max_init (l : List ℕ) (init : ℕ) : init ≤ l.foldr max init := by
  induction l with
  | nil => simp
  | cons a l ih => simp only [List.foldr_cons]; omega

theorem le_foldr_max_mem {l : List ℕ} {x : ℕ} (init : ℕ) (h : x ∈ l) :
    x ≤ l.foldr max init := by
  induction l with
  | nil => cases h
  | cons a l ih =>
      simp only [List.foldr_cons]
      rcases List.mem_cons.mp h with rfl | hmem
      · omega
      · have := ih hmem; omega

theorem inner_foldr_eq_map (f : ℕ → ℕ → ℕ) (i : ℕ) (js : List ℕ) (init : ℕ) :
    js.foldr (fun j acc2 => max (f i j) acc2) init = (js.map (f i)).foldr max init := by
  induction js with
  | nil => rfl
  | cons j js ih => simp [List.foldr_cons, ih]

theorem pairMax_le {f : ℕ → ℕ → ℕ} {is js : List ℕ} {c : ℕ}
    (h : ∀ i ∈ is, ∀ j ∈ js, f i j ≤ c) : pairMax f is js ≤ c := by
  induction is with
  | nil => simp [pairMax]
  | cons i is ih =>
      simp only [pairMax, List.foldr_cons]
      rw [inner_foldr_eq_map]
      refine foldr_max_le ?_ ?_
      · intro x hx
        rcases List.mem_map.mp hx with ⟨j, hj, rfl⟩
        exact h i (List.mem_cons_self _ _) j hj
      · exact ih (fun i2 hi2 => h i2 (List.mem_cons_of_mem _ hi2))

theorem pairMax_ge {f : ℕ → ℕ → ℕ} {is js : List ℕ} {i j : ℕ}
    (hi : i ∈ is) (hj : j ∈ js) : f i j ≤ pairMax f is js := by
  induction is with
  | nil => cases hi
  | cons a as ih =>
      simp only [pairMax, List.foldr_cons]
      rw [inner_foldr_eq_map]
      rcases List.mem_cons.mp hi with rfl | hmem
      · exact le_foldr_max_mem _ (List.mem_map.mpr ⟨j, hj, rfl⟩)
      · exact le_trans (ih hmem) (le_foldr_max_init _ _)

theorem flm_sound {a b : List Char} {alo ahi blo bhi i j k : ℕ}
    (h : flm a b alo ahi blo bhi = (i, j, k)) (hk : k ≠ 0) :
    alo ≤ i ∧ i + k ≤ ahi ∧ blo ≤ j ∧ j + k ≤ bhi ∧
      (a.drop i).take k = (b.drop j).take k := by
  rw [flm] at h
  split at h
  · cases h; exact absurd rfl hk
  · split at h
    · cases h; exact absurd rfl hk
    · rename_i hb i0 hfi
      split at h
      · cases h; exact absurd rfl hk
      · rename_i j0 hfj
        obtain ⟨h1, h2, hbk⟩ : i0 = i ∧ j0 = j ∧
            pairMax (extLen a b ahi bhi) (List.range' alo (ahi - alo))
              (List.range' blo (bhi - blo)) = k := by
          cases h; exact ⟨rfl, rfl, rfl⟩
        have hi_mem : i0 ∈ List.range' alo (ahi - alo) :=
          List.mem_of_find?_eq_some hfi
        have hj_mem : j0 ∈ List.range' blo (bhi - blo) :=
          List.mem_of_find?_eq_some hfj
        have hi_rng := List.mem_range'_1.mp hi_mem
        have hj_rng := List.mem_range'_1.mp hj_mem
        have hpj := List.find?_some hfj
        have hext : extLen a b ahi bhi i0 j0 = k := by
          rw [← hbk]
          simpa using hpj
        have hle1 : k ≤ ahi - i0 := hext ▸ extLen_le_left a b ahi bhi i0 j0
        have hle2 : k ≤ bhi - j0 := hext ▸ extLen_le_right a b ahi bhi i0 j0
        rw [← h1, ← h2]
        refine ⟨hi_rng.1, ?_, hj_rng.1, ?_, extLen_slice_eq a b ahi bhi i0 j0 k hext⟩
        · omega
        · omega

theorem flm_degenerate (a b : List Char) (alo blo bhi : ℕ) :
    flm a b alo alo blo bhi = (alo, blo, 0) := by
  rw [flm]
  simp [pairMax, Nat.sub_self]

theorem matchTotal_degenerate_left (a b : List Char) :
    ∀ (fuel alo blo bhi : ℕ), matchTotal a b fuel alo alo blo bhi = 0 := by
  intro fuel alo blo bhi
  cases fuel with
  | zero => rfl
  | succ n =>
      rw [matchTotal]
      rw [flm_degenerate]
      simp

theorem take_split3 (l : List Char) (p q k m : ℕ) (hpq : p ≤ q) :
    (l.drop p).take ((q - p) + k + m) =
      (l.drop p).take (q - p) ++ (l.drop q).take k ++ (l.drop (q + k)).take m := by
  have hd1 : (l.drop p).drop (q - p) = l.drop q := by
    rw [List.drop_drop]
    congr 1
    omega
  rw [show q - p + k + m = q - p + (k + m) by omega, List.take_add, hd1, List.take_add,
    List.drop_drop]
  rw [List.append_assoc]

theorem matchTotal_spec (a b : List Char) :
    ∀ (fuel alo ahi blo bhi : ℕ), alo ≤ ahi → ahi ≤ a.length → blo ≤ bhi →
      bhi ≤ b.length → ahi - alo ≤ fuel →
      matchTotal a b fuel alo ahi blo bhi ≤ ahi - alo ∧
      matchTotal a b fuel alo ahi blo bhi ≤ bhi - blo ∧
      (matchTotal a b fuel alo ahi blo bhi = ahi - alo →
       matchTotal a b fuel alo ahi blo bhi = bhi - blo →
       (a.drop alo).take (ahi - alo) = (b.drop blo).take (bhi - blo)) := by
  intro fuel
  induction fuel with
  | zero =>
      intro alo ahi blo bhi h1 h2 h3 h4 hfuel
      refine ⟨by simp [matchTotal], by simp [matchTotal], ?_⟩
      intro hEa hEb
      simp only [matchTotal] at hEa hEb
      rw [← hEa, ← hEb]
      simp
  | succ n ih =>
      intro alo ahi blo bhi h1 h2 h3 h4 hfuel
      rw [matchTotal]
      rcases hflm : flm a b alo ahi blo bhi with ⟨i, j2⟩
      rcases j2 with ⟨j, k⟩
      simp only
      by_cases hk : k = 0
      · rw [if_pos hk]
        refine ⟨Nat.zero_le _, Nat.zero_le _, ?_⟩
        intro hEa hEb
        rw [← hEa, ← hEb]
        simp
      · rw [if_neg hk]
        obtain ⟨hi1, hi2, hj1, hj2, hslice⟩ := flm_sound hflm hk
        have hkpos : 1 ≤ k := Nat.one_le_iff_ne_zero.mpr hk
        have ihL := ih alo i blo j (by omega) (by omega) (by omega) (by omega) (by omega)
        have ihR := ih (i + k) ahi (j + k) bhi (by omega) h2 (by omega) h4 (by omega)
        refine ⟨by omega, by omega, ?_⟩
        intro hEa hEb
        have hL := ihL.2.2 (by omega) (by omega)
        have hR := ihR.2.2 (by omega) (by omega)
        have hsA : (a.drop alo).take (ahi - alo) =
            (a.drop alo).take (i - alo) ++ (a.drop i).take k ++
              (a.drop (i + k)).take (ahi - (i + k)) := by
          rw [show ahi - alo = (i - alo) + k + (ahi - (i + k)) by omega]
          exact take_split3 a alo i k (ahi - (i + k)) hi1
        have hsB : (b.drop blo).take (bhi - blo) =
            (b.drop blo).take (j - blo) ++ (b.drop j).take k ++
              (b.drop (j + k)).take (bhi - (j + k)) := by
          rw [show bhi - blo = (j - blo) + k + (bhi - (j + k)) by omega]
          exact take_split3 b blo j k (bhi - (j + k)) hj1
        rw [hsA, hsB, hL, hslice, hR]

theorem extLen_full_self (a : List Char) : extLen a a a.length a.length 0 0 = a.length := by
  unfold extLen
  simp [lce_self]

theorem range'_zero_succ (s n : ℕ) : List.range' s (n + 1) = s :: List.range' (s + 1) n := rfl

theorem find?_range'_zero {p : ℕ → Bool} {n : ℕ} (hn : 0 < n) (hp : p 0 = true) :
    (List.range' 0 n).find? p = some 0 := by
  obtain ⟨m, rfl⟩ : ∃ m, n = m + 1 := ⟨n - 1, by omega⟩
  rw [range'_zero_succ]
  exact List.find?_cons_of_pos _ hp

theorem flm_diag (a : List Char) (h : a ≠ []) :
    flm a a 0 a.length 0 a.length = (0, 0, a.length) := by
  have hpos : 0 < a.length := List.length_pos.mpr h
  rw [flm]
  simp only [Nat.sub_zero]
  have hmem0 : 0 ∈ List.range' 0 a.length := by
    rw [List.mem_range'_1]; omega
  have hbest : pairMax (extLen a a a.length a.length)
      (List.range' 0 a.length) (List.range' 0 a.length) = a.length := by
    refine le_antisymm ?_ ?_
    · refine pairMax_le ?_
      intro i _ j _
      have := extLen_le_left a a a.length a.length i j
      omega
    · have := pairMax_ge (f := extLen a a a.length a.length) hmem0 hmem0
      rwa [extLen_full_self] at this
  rw [hbest]
  rw [if_neg (by omega)]
  have hp0 : (List.range' 0 a.length).any
      (fun j => extLen a a a.length a.length 0 j == a.length) = true := by
    rw [List.any_eq_true]
    exact ⟨0, hmem0, by simp [extLen_full_self]⟩
  have hfind1 : (List.range' 0 a.length).find?
      (fun i => (List.range' 0 a.length).any
        (fun j => extLen a a a.length a.length i j == a.length)) = some 0 :=
    find?_range'_zero hpos hp0
  have hfind2 : (List.range' 0 a.length).find?
      (fun j => extLen a a a.length a.length 0 j == a.length) = some 0 :=
    find?_range'_zero hpos (by simp [extLen_full_self])
  rw [hfind1]
  simp [hfind2]

theorem matchTotal_self (a : List Char) :
    matchTotal a a a.length 0 a.length 0 a.length = a.length := by
  cases ha : a with
  | nil => simp [matchTotal]
  | cons c cs =>
      rw [← ha]
      have hne : a ≠ [] := by rw [ha]; simp
      have hpos : 0 < a.length := List.length_pos.mpr hne
      obtain ⟨m, hm⟩ : ∃ m, a.length = m + 1 := ⟨a.length - 1, by omega⟩
      rw [hm, matchTotal, ← hm, flm_diag a hne]
      simp only
      rw [if_neg (by omega)]
      rw [Nat.zero_add, matchTotal_degenerate_left, matchTotal_degenerate_left]
      omega

theorem sm_score_eq_one_iff (a b : List Char) : sm_score a b = 1 ↔ a = b := by
  constructor
  · intro h
    rw [sm_score] at h
    split_ifs at h with h0
    · have ha : a.length = 0 := by omega
      have hb : b.length = 0 := by omega
      rw [List.length_eq_zero] at ha hb
      rw [ha, hb]
    · have hM := matchTotal_spec a b a.length 0 a.length 0 b.length
        (Nat.zero_le _) (le_refl _) (Nat.zero_le _) (le_refl _) (by omega)
      set M := matchTotal a b a.length 0 a.length 0 b.length with hMdef
      have hden : ((a.length : ℚ) + (b.length : ℚ)) ≠ 0 := by
        have h2 : (0:ℕ) < a.length + b.length := by omega
        have h3 : (0:ℚ) < (a.length : ℚ) + (b.length : ℚ) := by exact_mod_cast h2
        exact h3.ne'
      rw [div_eq_one_iff_eq hden] at h
      have hnat : 2 * M = a.length + b.length := by
        have := h
        push_cast at this
        exact_mod_cast this
      have hMa : M ≤ a.length := by simpa using hM.1
      have hMb : M ≤ b.length := by simpa using hM.2.1
      have hsl := hM.2.2 (by omega) (by omega)
      simpa using hsl
  · rintro rfl
    rw [sm_score]
    split_ifs with h0
    · rfl
    · rw [matchTotal_self]
      have hne : (a.length : ℚ) ≠ 0 := by
        have : a.length ≠ 0 := by omega
        exact_mod_cast this
      field_simp
      ring

theorem jaccardSet_comm (A B : Finset String) : jaccardSet A B = jaccardSet B A := by
  unfold jaccardSet
  by_cases h : A = ∅ ∨ B = ∅
  · rw [if_pos h, if_pos h.symm]
  · rw [if_neg h, if_neg (fun hc => h hc.symm)]
    rw [Finset.inter_comm, Finset.union_comm]

theorem string_toList_inj {s t : String} (h : s.toList = t.toList) : s = t := by
  cases s
  cases t
  simp only [String.toList] at h
  rw [h]

/-- C9 (amended): the description and keywords components of
`calculate_entity_similarity` are symmetric for every entity pair, and the
name component equals 1.0 exactly when the two names are identical after
case folding; but the name component (hence the total) is NOT symmetric in
general, because difflib's matcher is order-dependent. -/
theorem c9_similarity_partial_symmetry (e1 e2 : EntityNode) :
    (calculate_entity_similarity e1 e2).desc = (calculate_entity_similarity e2 e1).desc ∧
    (calculate_entity_similarity e1 e2).keywords =
      (calculate_entity_similarity e2 e1).keywords ∧
    ((calculate_entity_similarity e1 e2).name = 1 ↔ pyLower e1.name = pyLower e2.name) := by
  refine ⟨jaccardSet_comm _ _, jaccardSet_comm _ _, ?_⟩
  show sm_score (pyLower e1.name).toList (pyLower e2.name).toList = 1 ↔ _
  rw [sm_score_eq_one_iff]
  constructor
  · exact string_toList_inj
  · intro h; rw [h]

/-- C9 counterexample: the scorer is not symmetric.  For names "ab" and
"bacb" (with empty descriptions and keyword sets), the name component is 2/3
in one direction and 1/3 in the other, so the breakdowns differ. -/
theorem c9_not_symmetric :
    (calculate_entity_similarity simE1 simE2).name = 2/3 ∧
    (calculate_entity_similarity simE2 simE1).name = 1/3 ∧
    calculate_entity_similarity simE1 simE2 ≠ calculate_entity_similarity simE2 simE1 := by
  have hla : ((pyLower simE1.name).toList).length = 2 := by decide
  have hlb : ((pyLower simE2.name).toList).length = 4 := by decide
  have hM1 : matchTotal (pyLower simE1.name).toList (pyLower simE2.name).toList
      2 0 2 0 4 = 2 := by decide
  have hM2 : matchTotal (pyLower simE2.name).toList (pyLower simE1.name).toList
      4 0 4 0 2 = 1 := by decide
  have h1 : (calculate_entity_similarity simE1 simE2).name = 2/3 := by
    show sm_score (pyLower simE1.name).toList (pyLower simE2.name).toList = 2/3
    rw [sm_score]
    simp only [hla, hlb, hM1]
    norm_num
  have h2 : (calculate_entity_similarity simE2 simE1).name = 1/3 := by
    show sm_score (pyLower simE2.name).toList (pyLower simE1.name).toList = 1/3
    rw [sm_score]
    simp only [hla, hlb, hM2]
    norm_num
  refine ⟨h1, h2, ?_⟩
  intro hEq
  have : (2 : ℚ)/3 = 1/3 := by rw [← h1, ← h2, hEq]
  norm_num at this

/-! ### Ingestion and merge lemmas -/

theorem extract_data_entity_error (u : Unit) (relRes : Except Unit ExtractionResult) :
    extract_data (Except.error u) relRes = { entities := [], relationships := [] } := rfl

theorem extract_data_rel_error (entityRes : Except Unit ExtractionResult) (v : Unit) :
    (extract_data entityRes (Except.error v)).relationships = [] := by
  cases entityRes with
  | error _ => rfl
  | ok r1 => by_cases h : r1.entities.isEmpty <;> simp [extract_data, h]

theorem lookupL_alistSet_self {β : Type} (k : ℕ) (v : β) :
    ∀ d : List (ℕ × β), lookupL k (alistSet k v d) = some v := by
  intro d
  induction d with
  | nil => simp [alistSet, lookupL]
  | cons p rest ih =>
      rcases p with ⟨k2, v2⟩
      simp only [alistSet]
      split_ifs with h
      · simp [lookupL]
      · simp only [lookupL]
        rw [if_neg h]
        exact ih

theorem lookupL_alistSet_other {β : Type} (k k2 : ℕ) (v : β) (hne : k2 ≠ k) :
    ∀ d : List (ℕ × β), lookupL k2 (alistSet k v d) = lookupL k2 d := by
  intro d
  induction d with
  | nil =>
      simp only [alistSet, lookupL]
      rw [if_neg (by omega)]
  | cons p rest ih =>
      rcases p with ⟨k3, v3⟩
      simp only [alistSet]
      split_ifs with h
      · subst h
        simp only [lookupL]
        rw [if_neg (by omega), if_neg (by omega)]
      · simp only [lookupL]
        split_ifs with h2
        · rfl
        · exact ih

theorem alistDel_cons_self {β : Type} (k : ℕ) (v : β) (rest : List (ℕ × β)) :
    alistDel k ((k, v) :: rest) = alistDel k rest := by
  simp [alistDel, List.filter_cons]

theorem alistDel_cons_other {β : Type} (k k2 : ℕ) (v : β) (rest : List (ℕ × β))
    (h : k2 ≠ k) : alistDel k ((k2, v) :: rest) = (k2, v) :: alistDel k rest := by
  simp [alistDel, List.filter_cons, h]

theorem lookupL_alistDel_self {β : Type} (k : ℕ) :
    ∀ d : List (ℕ × β), lookupL k (alistDel k d) = none := by
  intro d
  induction d with
  | nil => rfl
  | cons p rest ih =>
      rcases p with ⟨k2, v2⟩
      by_cases h : k2 = k
      · subst h
        rw [alistDel_cons_self]
        exact ih
      · rw [alistDel_cons_other k k2 v2 rest h]
        simp only [lookupL]
        rw [if_neg h]
        exact ih

theorem lookupL_alistDel_other {β : Type} (k k2 : ℕ) (hne : k2 ≠ k) :
    ∀ d : List (ℕ × β), lookupL k2 (alistDel k d) = lookupL k2 d := by
  intro d
  induction d with
  | nil => rfl
  | cons p rest ih =>
      rcases p with ⟨k3, v3⟩
      by_cases h : k3 = k
      · subst h
        rw [alistDel_cons_self, ih]
        simp only [lookupL]
        rw [if_neg (by omega)]
      · rw [alistDel_cons_other k k3 v3 rest h]
        simp only [lookupL]
        split_ifs with h2
        · rfl
        · exact ih

/-- Shape of a `save_knowledge_flow` run: either nothing commits and the
state is returned untouched (the "nothing to ingest" return or a rollback),
or the run succeeds and the result is exactly the committed transaction plus
the post-commit mirror merge, decomposed into the entity-loop and
relationship-loop outputs. -/
theorem save_shape (failAt : Option ℕ) (now text : String)
    (eR rR : Except Unit ExtractionResult) (st : AppState) :
    ((save_knowledge_flow failAt now text eR rR st).1 = st ∧
      (save_knowledge_flow failAt now text eR rR st).2 ≠ SaveOutcome.success) ∨
    (∃ es rs,
      procEnts failAt st.counter (extract_data eR rR).entities
        { txn := st.db, wc := 0, counter := st.counter + 1, final_entity_ids := [],
          buffer := [], nameMap := fun _ => none, confMap := fun _ => none } =
        Except.ok es ∧
      procRels failAt st.counter now st.session.relationship_types st.session.entities
        es.buffer es.nameMap es.confMap (extract_data eR rR).relationships
        { txn := es.txn, wc := es.wc, counter := es.counter, rel_buffer := [],
          ev_buffer := [] } = Except.ok rs ∧
      save_knowledge_flow failAt now text eR rR st =
        ({ db := { rs.txn with knowledge := rs.txn.knowledge ++
              [{ id := st.counter, content_raw := text, timestamp := now,
                 related_entity_ids := es.final_entity_ids }] },
           session :=
             { entities := alistUpdate st.session.entities es.buffer,
               knowledges := st.session.knowledges ++
                 [{ id := st.counter, content_raw := text, timestamp := now }],
               relationship_types := st.session.relationship_types,
               evidence := alistUpdate st.session.evidence rs.ev_buffer,
               relation_assertions := st.session.relation_assertions ++ rs.rel_buffer },
           counter := rs.counter }, SaveOutcome.success)) := by
  simp only [save_knowledge_flow]
  split
  · left
    exact ⟨rfl, by simp⟩
  · split
    · left
      exact ⟨rfl, by simp⟩
    · rename_i es hes
      split
      · left
        exact ⟨rfl, by simp⟩
      · rename_i rs hrs
        split
        · left
          exact ⟨rfl, by simp⟩
        · right
          exact ⟨es, rs, hes, hrs, rfl⟩

/-- C1: ingestion is all-or-nothing.  Whenever `save_knowledge_flow` reports
`failure` (an exception anywhere in steps 3–5: an entity insert, a
relationship-processing step, an evidence or assertion insert, or the
KnowledgeEntry insert), the durable database and the in-memory mirror are
both left exactly as they were — the transaction is rolled back and the
mirror, which is only merged after commit, was never touched. -/
theorem c1_ingestion_atomic (failAt : Option ℕ) (now text : String)
    (entityRes relRes : Except Unit ExtractionResult) (st : AppState)
    (h : (save_knowledge_flow failAt now text entityRes relRes st).2 = SaveOutcome.failure) :
    (save_knowledge_flow failAt now text entityRes relRes st).1.db = st.db ∧
    (save_knowledge_flow failAt now text entityRes relRes st).1.session = st.session := by
  rcases save_shape failAt now text entityRes relRes st with ⟨h1, _⟩ | ⟨es, rs, _, _, heq⟩
  · rw [h1]
    exact ⟨rfl, rfl⟩
  · rw [heq] at h
    exact absurd h (by simp)

/-- C1 witness: injecting a write failure at the very first entity insert of
a concrete run yields `failure` and leaves the state unchanged. -/
theorem c1_ingestion_atomic_witness :
    (save_knowledge_flow (some 0) "T" "txt" (Except.ok ibRes) (Except.ok ibRes) ibSt).2 =
      SaveOutcome.failure ∧
    (save_knowledge_flow (some 0) "T" "txt" (Except.ok ibRes) (Except.ok ibRes) ibSt).1.db =
      ibSt.db ∧
    (save_knowledge_flow (some 0) "T" "txt" (Except.ok ibRes) (Except.ok ibRes) ibSt).1.session =
      ibSt.session := by
  refine ⟨by decide, ?_, ?_⟩
  · exact (c1_ingestion_atomic (some 0) "T" "txt" (Except.ok ibRes) (Except.ok ibRes) ibSt
      (by decide)).1
  · exact (c1_ingestion_atomic (some 0) "T" "txt" (Except.ok ibRes) (Except.ok ibRes) ibSt
      (by decide)).2

theorem procEnts_tables (failAt : Option ℕ) (kid : ℕ) :
    ∀ (ents : List ExtractedEntity) (s es : EntLoop),
      procEnts failAt kid ents s = Except.ok es →
      es.txn.relation_assertions = s.txn.relation_assertions ∧
      es.txn.evidence = s.txn.evidence ∧
      es.txn.knowledge = s.txn.knowledge := by
  intro ents
  induction ents with
  | nil =>
      intro s es h
      simp only [procEnts] at h
      cases h
      exact ⟨rfl, rfl, rfl⟩
  | cons raw rest ih =>
      intro s es h
      simp only [procEnts] at h
      split_ifs at h with hf
      have hx := ih _ _ h
      exact hx

/-- C3 (amended): a failed or unparsable entity-extraction call aborts the
ingestion with no side effects at all ("nothing to ingest": nothing written,
nothing mirrored); but a failed relationship-extraction call does NOT abort —
the run continues with the extracted entities, never creating any Evidence or
RelationAssertion (durably or in the mirror), while Entity rows and the
KnowledgeEntry are still written and mirrored on success. -/
theorem c3_oracle_failure_scoped (failAt : Option ℕ) (now text : String)
    (entityRes relRes : Except Unit ExtractionResult) (st : AppState) (u v : Unit) :
    save_knowledge_flow failAt now text (Except.error u) relRes st =
      (st, SaveOutcome.noEntities) ∧
    ((save_knowledge_flow failAt now text entityRes (Except.error v) st).1.db.relation_assertions =
        st.db.relation_assertions ∧
      (save_knowledge_flow failAt now text entityRes (Except.error v) st).1.db.evidence =
        st.db.evidence ∧
      (save_knowledge_flow failAt now text entityRes (Except.error v) st).1.session.relation_assertions =
        st.session.relation_assertions ∧
      (save_knowledge_flow failAt now text entityRes (Except.error v) st).1.session.evidence =
        st.session.evidence) := by
  constructor
  · show save_knowledge_flow failAt now text (Except.error u) relRes st = _
    unfold save_knowledge_flow
    rw [extract_data_entity_error]
    rfl
  · have hrels := extract_data_rel_error entityRes v
    rcases save_shape failAt now text entityRes (Except.error v) st with
      ⟨h1, _⟩ | ⟨es, rs, hes, hrs, heq⟩
    · rw [h1]
      exact ⟨rfl, rfl, rfl, rfl⟩
    · rw [hrels] at hrs
      simp only [procRels] at hrs
      have hts := procEnts_tables failAt st.counter _ _ _ hes
      obtain rfl : ({ txn := es.txn, wc := es.wc, counter := es.counter, rel_buffer := [], ev_buffer := [] } : RelLoop) = rs := by
        simpa using hrs
      rw [heq]
      simp only
      refine ⟨hts.1, hts.2.1, ?_, ?_⟩
      · simp [alistUpdate]
      · simp [alistUpdate]

/-- C3 counterexample: when only the relationship-extraction call fails, the
run is NOT aborted: it succeeds, writes the three Entity rows and the
KnowledgeEntry, and merges them into the mirror — contradicting "no Entity
... or KnowledgeEntry row is written and nothing is merged". -/
theorem c3_rel_failure_still_writes :
    (save_knowledge_flow none "T" "txt" (Except.ok ibRes) (Except.error ()) ibSt).2 =
      SaveOutcome.success ∧
    (save_knowledge_flow none "T" "txt" (Except.ok ibRes) (Except.error ()) ibSt).1.db.entities.length = 3 ∧
    (save_knowledge_flow none "T" "txt" (Except.ok ibRes) (Except.error ()) ibSt).1.db.knowledge.length = 1 ∧
    (save_knowledge_flow none "T" "txt" (Except.ok ibRes) (Except.error ()) ibSt).1.session.entities.length = 3 ∧
    (save_knowledge_flow none "T" "txt" (Except.ok ibRes) (Except.error ()) ibSt).1.session.knowledges.length = 1 := by
  refine ⟨by decide, by decide, by decide, by decide, by decide⟩

/-- C7: merge correctness.  After a successful `perform_entity_merge` of
duplicate B into master A: every assertion endpoint equal to B's id is
repointed to A's id (the durable table and the mirrored list are both mapped
through the same endpoint rewrite, so an A→B assertion now targets A); B no
longer exists as an entity in mirror or durable storage; and A's source
knowledge ids equal the set union of A's and B's prior ones, in the mirror
and in every durable master row. -/
theorem c7_merge_correctness (synRes : Except Unit SynthesisResult)
    (master_id duplicate_id : ℕ) (st st2 : AppState) (syn : SynthesisResult)
    (e1 e2 : EntityNode)
    (hne : master_id ≠ duplicate_id)
    (h1 : lookupL master_id st.session.entities = some e1)
    (h2 : lookupL duplicate_id st.session.entities = some e2)
    (hm : perform_entity_merge synRes master_id duplicate_id st = some (st2, syn)) :
    st2.db.relation_assertions =
      st.db.relation_assertions.map (repoint duplicate_id master_id) ∧
    st2.session.relation_assertions =
      st.session.relation_assertions.map (repoint duplicate_id master_id) ∧
    (∀ r ∈ st.session.relation_assertions, r.source_entity_id = master_id →
       r.target_entity_id = duplicate_id →
       repoint duplicate_id master_id r ∈ st2.session.relation_assertions ∧
       (repoint duplicate_id master_id r).target_entity_id = master_id) ∧
    lookupL duplicate_id st2.session.entities = none ∧
    (∀ row ∈ st2.db.entities, row.id ≠ duplicate_id) ∧
    (∃ e1f, lookupL master_id st2.session.entities = some e1f ∧
       ∀ x, x ∈ e1f.source_knowledge_ids ↔
         (x ∈ e1.source_knowledge_ids ∨ x ∈ e2.source_knowledge_ids)) ∧
    (∀ row ∈ st2.db.entities, row.id = master_id →
       ∀ x, x ∈ row.source_knowledge_ids ↔
         (x ∈ e1.source_knowledge_ids ∨ x ∈ e2.source_knowledge_ids)) := by
  unfold perform_entity_merge at hm
  rw [h1, h2] at hm
  simp only [Option.some.injEq, Prod.mk.injEq] at hm
  obtain ⟨hst2, hsyn⟩ := hm
  subst hst2
  subst hsyn
  refine ⟨?_, ?_, ?_, ?_, ?_, ?_, ?_⟩
  · rw [List.map_map]
    rfl
  · rfl
  · intro r hr hs ht
    refine ⟨List.mem_map.mpr ⟨r, hr, rfl⟩, ?_⟩
    have hs' : ¬(r.source_entity_id = duplicate_id) := by rw [hs]; exact hne
    simp [repoint, hs', ht]
  · exact lookupL_alistDel_self duplicate_id _
  · intro row hrow
    simp only [List.mem_filter] at hrow
    simpa using hrow.2
  · exact ⟨_, by
      rw [lookupL_alistDel_other duplicate_id master_id hne, lookupL_alistSet_self],
      by intro x; simp [List.mem_dedup]⟩
  · intro row hrow hid
    simp only [List.mem_filter, List.mem_map] at hrow
    obtain ⟨⟨row0, hrow0, hrow0eq⟩, _⟩ := hrow
    subst hrow0eq
    revert hid
    split_ifs with hrid
    · intro _ x
      simp [List.mem_dedup]
    · intro hid
      exact absurd hid hrid

/-- C7 witness: the concrete merge of entity 2 into entity 1 with an A→B
assertion. -/
theorem c7_merge_correctness_witness :
    lookupL 2 ((perform_entity_merge (Except.ok ⟨"m", ["k"]⟩) 1 2 mgSt).get (by decide)).1.session.entities = none ∧
    ((perform_entity_merge (Except.ok ⟨"m", ["k"]⟩) 1 2 mgSt).get (by decide)).1.session.relation_assertions =
      mgSt.session.relation_assertions.map (repoint 2 1) := by
  have h := c7_merge_correctness (Except.ok ⟨"m", ["k"]⟩) 1 2 mgSt
    ((perform_entity_merge (Except.ok ⟨"m", ["k"]⟩) 1 2 mgSt).get (by decide)).1
    ((perform_entity_merge (Except.ok ⟨"m", ["k"]⟩) 1 2 mgSt).get (by decide)).2
    mgE1 mgE2 (by decide) (by decide) (by decide) (by decide)
  exact ⟨h.2.2.2.1, h.2.1⟩

/-- C8 (amended): when the synthesis collaborator call fails, the merge still
completes — it never fails outright due to the oracle error — using as
fallback the MASTER's description and the MASTER's keywords (the duplicate's
keywords are discarded; no keyword union is formed). -/
theorem c8_synthesis_fallback (master_id duplicate_id : ℕ) (st : AppState)
    (e1 e2 : EntityNode)
    (h1 : lookupL master_id st.session.entities = some e1)
    (h2 : lookupL duplicate_id st.session.entities = some e2) :
    ∃ st2 syn,
      perform_entity_merge (Except.error ()) master_id duplicate_id st = some (st2, syn) ∧
      syn.new_description = e1.description ∧
      syn.new_keywords = e1.keywords := by
  unfold perform_entity_merge
  rw [h1, h2]
  exact ⟨_, _, rfl, rfl, rfl⟩

/-- C8 counterexample: the fallback is NOT the union of the two entities'
keywords.  The duplicate's keyword "k2" exists, but the fallback result
keeps only the master's ["k1"]. -/
theorem c8_fallback_not_union :
    (perform_entity_merge (Except.error ()) 1 2 mgSt).map (fun p => p.2.new_keywords) =
      some ["k1"] ∧
    (lookupL 2 mgSt.session.entities).map EntityNode.keywords = some ["k2"] := by
  constructor <;> decide

/-- C8 witness: the fallback theorem at the concrete merge scenario. -/
theorem c8_synthesis_fallback_witness :
    ∃ st2 syn,
      perform_entity_merge (Except.error ()) 1 2 mgSt = some (st2, syn) ∧
      syn.new_description = mgE1.description ∧
      syn.new_keywords = mgE1.keywords :=
  c8_synthesis_fallback 1 2 mgSt mgE1 mgE2 (by decide) (by decide)

theorem bool_ne_false {b : Bool} (h : ¬b = false) : b = true := by
  cases b
  · exact absurd rfl h
  · rfl

theorem lastPick_range :
    ∀ (ents : List ExtractedEntity) (c : ℕ) (nm : String) (i : ℕ) (e : ExtractedEntity),
      lastPick ents c nm = some (i, e) →
      c ≤ i ∧ i < c + ents.length ∧ e ∈ ents ∧ nm = normalize_entity_name e.name := by
  intro ents
  induction ents with
  | nil => intro c nm i e h; simp [lastPick] at h
  | cons e0 rest ih =>
      intro c nm i e h
      simp only [lastPick] at h
      split at h
      · rename_i x hx
        have hx' : lastPick rest (c + 1) nm = some (i, e) := hx.trans h
        obtain ⟨h1, h2, h3, h4⟩ := ih (c + 1) nm i e hx'
        exact ⟨by omega, by simp only [List.length_cons]; omega,
          List.mem_cons_of_mem _ h3, h4⟩
      · rename_i hx
        by_cases hnm : nm = normalize_entity_name e0.name
        · rw [if_pos hnm] at h
          injection h with h'
          injection h' with hi he
          subst hi
          subst he
          exact ⟨le_refl c, by simp only [List.length_cons]; omega,
            List.mem_cons_self _ _, hnm⟩
        · rw [if_neg hnm] at h
          exact Option.noConfusion h

theorem lastPick_lookup_minted (kid : ℕ) :
    ∀ (ents : List ExtractedEntity) (c : ℕ) (nm : String) (i : ℕ) (e : ExtractedEntity),
      lastPick ents c nm = some (i, e) →
      lookupL i (mintedNodes kid c ents) = some (mkSessionEntity i kid e) := by
  intro ents
  induction ents with
  | nil => intro c nm i e h; simp [lastPick] at h
  | cons e0 rest ih =>
      intro c nm i e h
      simp only [lastPick] at h
      split at h
      · rename_i x hx
        have hx' : lastPick rest (c + 1) nm = some (i, e) := hx.trans h
        have hb := lastPick_range rest (c + 1) nm i e hx'
        have hne : c ≠ i := by omega
        simp only [mintedNodes, lookupL, if_neg hne]
        exact ih (c + 1) nm i e hx'
      · rename_i hx
        by_cases hnm : nm = normalize_entity_name e0.name
        · rw [if_pos hnm] at h
          injection h with h'
          injection h' with hi he
          subst hi
          subst he
          simp [mintedNodes, lookupL]
        · rw [if_neg hnm] at h
          exact Option.noConfusion h

theorem mintedNodes_key_bound (kid : ℕ) :
    ∀ (ents : List ExtractedEntity) (c : ℕ) (p : ℕ × EntityNode),
      p ∈ mintedNodes kid c ents → c ≤ p.1 ∧ p.1 < c + ents.length := by
  intro ents
  induction ents with
  | nil => intro c p h; simp [mintedNodes] at h
  | cons e0 rest ih =>
      intro c p h
      simp only [mintedNodes, List.mem_cons] at h
      rcases h with rfl | h
      · exact ⟨le_refl c, by show c < c + (rest.length + 1); omega⟩
      · have hb := ih (c + 1) p h
        simp only [List.length_cons]
        omega

theorem mintedNodes_pairwise (kid : ℕ) :
    ∀ (ents : List ExtractedEntity) (c : ℕ),
      List.Pairwise (fun p q => p.1 ≠ q.1) (mintedNodes kid c ents) := by
  intro ents
  induction ents with
  | nil => intro c; simp [mintedNodes]
  | cons e0 rest ih =>
      intro c
      simp only [mintedNodes]
      refine List.Pairwise.cons ?_ (ih (c + 1))
      intro q hq
      have hb := mintedNodes_key_bound kid rest (c + 1) q hq
      show c ≠ q.1
      omega

theorem mintedRows_map_id (kid : ℕ) :
    ∀ (ents : List ExtractedEntity) (c : ℕ),
      (mintedRows kid c ents).map EntityRow.id = List.range' c ents.length := by
  intro ents
  induction ents with
  | nil => intro c; simp [mintedRows]
  | cons e0 rest ih =>
      intro c
      simp only [mintedRows, List.map_cons, List.length_cons, range'_zero_succ]
      rw [ih (c + 1)]
      rfl

theorem lookupL_none_of_keys {β : Type} (k : ℕ) :
    ∀ d : List (ℕ × β), (∀ p ∈ d, p.1 ≠ k) → lookupL k d = none := by
  intro d
  induction d with
  | nil => intro _; rfl
  | cons kv rest ih =>
      intro h
      obtain ⟨k2, v⟩ := kv
      simp only [lookupL]
      rw [if_neg (h (k2, v) (List.mem_cons_self _ _))]
      exact ih fun p hp => h p (List.mem_cons_of_mem _ hp)

theorem lookupL_append_of_none {β : Type} (k : ℕ) :
    ∀ (d1 d2 : List (ℕ × β)), lookupL k d1 = none →
      lookupL k (d1 ++ d2) = lookupL k d2 := by
  intro d1
  induction d1 with
  | nil => intro d2 _; rfl
  | cons kv rest ih =>
      intro d2 h
      obtain ⟨k2, v⟩ := kv
      simp only [List.cons_append, lookupL] at h ⊢
      by_cases hk : k2 = k
      · rw [if_pos hk] at h
        exact Option.noConfusion h
      · rw [if_neg hk] at h ⊢
        exact ih d2 h

theorem alistSet_absent {β : Type} (k : ℕ) (v : β) :
    ∀ d : List (ℕ × β), lookupL k d = none → alistSet k v d = d ++ [(k, v)] := by
  intro d
  induction d with
  | nil => intro _; rfl
  | cons kv rest ih =>
      intro h
      obtain ⟨k2, v2⟩ := kv
      simp only [lookupL] at h
      simp only [alistSet, List.cons_append]
      by_cases hk : k2 = k
      · rw [if_pos hk] at h
        exact Option.noConfusion h
      · rw [if_neg hk] at h
        rw [if_neg hk, ih h]

theorem alistUpdate_eq_append {β : Type} :
    ∀ (d2 d : List (ℕ × β)),
      (∀ p ∈ d2, lookupL p.1 d = none) →
      List.Pairwise (fun p q => p.1 ≠ q.1) d2 →
      alistUpdate d d2 = d ++ d2 := by
  intro d2
  induction d2 with
  | nil => intro d _ _; simp [alistUpdate]
  | cons x rest ih =>
      intro d habs hpw
      obtain ⟨hhead, htail⟩ := List.pairwise_cons.mp hpw
      have hset : alistSet x.1 x.2 d = d ++ [x] := by
        have hx := alistSet_absent x.1 x.2 d (habs x (List.mem_cons_self _ _))
        simpa using hx
      have habs2 : ∀ p ∈ rest, lookupL p.1 (d ++ [x]) = none := by
        intro p hp
        rw [lookupL_append_of_none _ _ _ (habs p (List.mem_cons_of_mem _ hp))]
        refine lookupL_none_of_keys _ _ ?_
        intro q hq
        rw [List.mem_singleton] at hq
        subst hq
        exact hhead p hp
      calc alistUpdate d (x :: rest)
          = alistUpdate (alistSet x.1 x.2 d) rest := rfl
        _ = alistUpdate (d ++ [x]) rest := by rw [hset]
        _ = (d ++ [x]) ++ rest := ih (d ++ [x]) habs2 htail
        _ = d ++ (x :: rest) := by rw [List.append_assoc, List.singleton_append]

theorem procEnts_ok (failAt : Option ℕ) (kid : ℕ) :
    ∀ (ents : List ExtractedEntity) (s es : EntLoop),
      procEnts failAt kid ents s = Except.ok es →
      es.buffer = s.buffer ++ mintedNodes kid s.counter ents ∧
      es.final_entity_ids = s.final_entity_ids ++ List.range' s.counter ents.length ∧
      es.counter = s.counter + ents.length ∧
      es.txn.entities = s.txn.entities ++ mintedRows kid s.counter ents ∧
      (∀ nm, es.nameMap nm =
        (match lastPick ents s.counter nm with
         | some x => some x.1
         | none => s.nameMap nm)) ∧
      (∀ nm, es.confMap nm =
        (match lastPick ents s.counter nm with
         | some x => some x.2.confidence
         | none => s.confMap nm)) := by
  intro ents
  induction ents with
  | nil =>
      intro s es h
      simp only [procEnts] at h
      cases h
      simp [mintedNodes, mintedRows, lastPick]
  | cons raw rest ih =>
      intro s es h
      simp only [procEnts] at h
      split_ifs at h with hf
      obtain ⟨hbuf, hfin, hcnt, htxn, hnm, hcm⟩ := ih _ _ h
      refine ⟨?_, ?_, ?_, ?_, ?_, ?_⟩
      · rw [hbuf]
        simp [mintedNodes, List.append_assoc]
      · rw [hfin]
        simp [range'_zero_succ, List.append_assoc]
      · rw [hcnt]
        show s.counter + 1 + rest.length = s.counter + (rest.length + 1)
        omega
      · rw [htxn]
        simp [mintedRows, List.append_assoc]
      · intro nm
        rw [hnm nm]
        simp only [lastPick]
        cases hlp : lastPick rest (s.counter + 1) nm with
        | some x => simp
        | none =>
            by_cases hn : nm = normalize_entity_name raw.name
            · simp [hn]
            · simp [hn]
      · intro nm
        rw [hcm nm]
        simp only [lastPick]
        cases hlp : lastPick rest (s.counter + 1) nm with
        | some x => simp
        | none =>
            by_cases hn : nm = normalize_entity_name raw.name
            · simp [hn]
            · simp [hn]

/-- `procEnts_ok` specialized to the fresh loop state `save_knowledge_flow`
starts with: the run's buffer, ids, durable rows and name/confidence maps
in closed form. -/
theorem procEnts_ok_init (failAt : Option ℕ) (kid cnt : ℕ) (db : DB)
    (ents : List ExtractedEntity) (es : EntLoop)
    (h : procEnts failAt kid ents
      { txn := db, wc := 0, counter := cnt, final_entity_ids := [],
        buffer := [], nameMap := fun _ => none, confMap := fun _ => none } =
      Except.ok es) :
    es.buffer = mintedNodes kid cnt ents ∧
    es.final_entity_ids = List.range' cnt ents.length ∧
    es.counter = cnt + ents.length ∧
    es.txn.entities = db.entities ++ mintedRows kid cnt ents ∧
    es.txn.knowledge = db.knowledge ∧
    (∀ nm, es.nameMap nm = (lastPick ents cnt nm).map Prod.fst) ∧
    (∀ nm, es.confMap nm = (lastPick ents cnt nm).map (fun x => x.2.confidence)) := by
  obtain ⟨hbuf, hfin, hcnt, htxn, hnm, hcm⟩ := procEnts_ok failAt kid ents _ es h
  have htab := procEnts_tables failAt kid ents _ es h
  refine ⟨?_, ?_, ?_, ?_, ?_, ?_, ?_⟩
  · have hx : es.buffer = [] ++ mintedNodes kid cnt ents := hbuf
    simpa using hx
  · have hx : es.final_entity_ids = [] ++ List.range' cnt ents.length := hfin
    simpa using hx
  · exact hcnt
  · exact htxn
  · exact htab.2.2
  · intro nm
    have hx : es.nameMap nm =
        (match lastPick ents cnt nm with
         | some x => some x.1
         | none => (none : Option ℕ)) := hnm nm
    cases hlp : lastPick ents cnt nm with
    | some x =>
        rw [hlp] at hx
        exact hx
    | none =>
        rw [hlp] at hx
        exact hx
  · intro nm
    have hx : es.confMap nm =
        (match lastPick ents cnt nm with
         | some x => some x.2.confidence
         | none => (none : Option ℚ)) := hcm nm
    cases hlp : lastPick ents cnt nm with
    | some x =>
        rw [hlp] at hx
        exact hx
    | none =>
        rw [hlp] at hx
        exact hx

theorem procRels_tables (failAt : Option ℕ) (kid : ℕ) (now : String)
    (rtypes : List (ℕ × RelationshipType)) (sess buf : List (ℕ × EntityNode))
    (nameMap : String → Option ℕ) (confMap : String → Option ℚ) :
    ∀ (rels : List ExtractedRelationship) (s rs : RelLoop),
      procRels failAt kid now rtypes sess buf nameMap confMap rels s = Except.ok rs →
      rs.txn.entities = s.txn.entities ∧ rs.txn.knowledge = s.txn.knowledge := by
  intro rels
  induction rels with
  | nil =>
      intro s rs h
      simp only [procRels] at h
      cases h
      exact ⟨rfl, rfl⟩
  | cons rel rest ih =>
      intro s rs h
      simp only [procRels] at h
      split at h
      · exact ih _ _ h
      · split at h
        · exact ih _ _ h
        · split at h
          · exact ih _ _ h
          · split at h
            · exact Except.noConfusion h
            · split at h
              · exact Except.noConfusion h
              · split_ifs at h with hval hf1 hf2
                · exact ih _ _ h
                · have hx := ih _ _ h
                  exact hx

theorem RaSpec_mono (kid : ℕ) (now : String) (rtypes : List (ℕ × RelationshipType))
    (sess buf : List (ℕ × EntityNode)) (nameMap : String → Option ℕ)
    (confMap : String → Option ℚ) (rel0 : ExtractedRelationship)
    (rels : List ExtractedRelationship) (ra : RelationAssertion)
    (h : RaSpec kid now rtypes sess buf nameMap confMap rels ra) :
    RaSpec kid now rtypes sess buf nameMap confMap (rel0 :: rels) ra := by
  obtain ⟨rel, hrel, hrest⟩ := h
  exact ⟨rel, List.mem_cons_of_mem _ hrel, hrest⟩

/-- Every assertion the relationship loop buffers either was already in the
incoming buffer or satisfies `RaSpec` for some candidate of the run. -/
theorem procRels_ok (failAt : Option ℕ) (kid : ℕ) (now : String)
    (rtypes : List (ℕ × RelationshipType)) (sess buf : List (ℕ × EntityNode))
    (nameMap : String → Option ℕ) (confMap : String → Option ℚ) :
    ∀ (rels : List ExtractedRelationship) (s rs : RelLoop),
      procRels failAt kid now rtypes sess buf nameMap confMap rels s = Except.ok rs →
      ∀ ra ∈ rs.rel_buffer,
        ra ∈ s.rel_buffer ∨ RaSpec kid now rtypes sess buf nameMap confMap rels ra := by
  intro rels
  induction rels with
  | nil =>
      intro s rs h ra hra
      simp only [procRels] at h
      cases h
      exact Or.inl hra
  | cons rel rest ih =>
      intro s rs h ra hra
      simp only [procRels] at h
      split at h
      · rcases ih _ _ h ra hra with hm | hs
        · exact Or.inl hm
        · exact Or.inr (RaSpec_mono _ _ _ _ _ _ _ _ _ _ hs)
      · rename_i rel_type_id rel_type_obj hft
        split at h
        · rcases ih _ _ h ra hra with hm | hs
          · exact Or.inl hm
          · exact Or.inr (RaSpec_mono _ _ _ _ _ _ _ _ _ _ hs)
        · rename_i src_id hsrc
          split at h
          · rcases ih _ _ h ra hra with hm | hs
            · exact Or.inl hm
            · exact Or.inr (RaSpec_mono _ _ _ _ _ _ _ _ _ _ hs)
          · rename_i tgt_id htgt
            split at h
            · exact Except.noConfusion h
            · rename_i src_ent hsrcent
              split at h
              · exact Except.noConfusion h
              · rename_i tgt_ent htgtent
                split_ifs at h with hval hf1 hf2
                · rcases ih _ _ h ra hra with hm | hs
                  · exact Or.inl hm
                  · exact Or.inr (RaSpec_mono _ _ _ _ _ _ _ _ _ _ hs)
                · rcases ih _ _ h ra hra with hm | hs
                  · rw [List.mem_append] at hm
                    rcases hm with hm | hm
                    · exact Or.inl hm
                    · rw [List.mem_singleton] at hm
                      subst hm
                      right
                      exact ⟨rel, List.mem_cons_self _ _, rel_type_id, rel_type_obj,
                        src_id, tgt_id, src_ent, tgt_ent, s.counter,
                        hft, hsrc, htgt, hsrcent, htgtent, bool_ne_false hval, rfl⟩
                  · exact Or.inr (RaSpec_mono _ _ _ _ _ _ _ _ _ _ hs)

/-- A `success` outcome exposes the two loop results and the exact final
state `save_knowledge_flow` built from them. -/
theorem save_success_shape (failAt : Option ℕ) (now text : String)
    (eR rR : Except Unit ExtractionResult) (st st2 : AppState)
    (h : save_knowledge_flow failAt now text eR rR st = (st2, SaveOutcome.success)) :
    ∃ es rs,
      procEnts failAt st.counter (extract_data eR rR).entities
        { txn := st.db, wc := 0, counter := st.counter + 1, final_entity_ids := [],
          buffer := [], nameMap := fun _ => none, confMap := fun _ => none } =
        Except.ok es ∧
      procRels failAt st.counter now st.session.relationship_types st.session.entities
        es.buffer es.nameMap es.confMap (extract_data eR rR).relationships
        { txn := es.txn, wc := es.wc, counter := es.counter, rel_buffer := [],
          ev_buffer := [] } = Except.ok rs ∧
      st2 =
        ({ db := { rs.txn with knowledge := rs.txn.knowledge ++
              [{ id := st.counter, content_raw := text, timestamp := now,
                 related_entity_ids := es.final_entity_ids }] },
           session :=
             { entities := alistUpdate st.session.entities es.buffer,
               knowledges := st.session.knowledges ++
                 [{ id := st.counter, content_raw := text, timestamp := now }],
               relationship_types := st.session.relationship_types,
               evidence := alistUpdate st.session.evidence rs.ev_buffer,
               relation_assertions := st.session.relation_assertions ++ rs.rel_buffer },
           counter := rs.counter } : AppState) := by
  rcases save_shape failAt now text eR rR st with ⟨h1, h2⟩ | ⟨es, rs, hes, hrs, heq⟩
  · rw [h] at h2
    exact absurd rfl h2
  · refine ⟨es, rs, hes, hrs, ?_⟩
    rw [h] at heq
    exact ((Prod.mk.injEq _ _ _ _).mp heq).1

/-- C10: when one run's extraction contains several candidates with the same
case/whitespace-normalized name, every candidate is still persisted as its own
distinct Entity row (fresh ids `st.counter + 1, …`, pairwise distinct), all of
these ids appear in the KnowledgeEntry's related entity ids, and every newly
created assertion resolves each endpoint to the id of the LAST candidate with
that normalized name (`lastPick` — the per-run name map is overwritten on
duplicates). -/
theorem c10_duplicate_name_last_wins (failAt : Option ℕ) (now text : String)
    (eR rR : Except Unit ExtractionResult) (st st2 : AppState)
    (h : save_knowledge_flow failAt now text eR rR st = (st2, SaveOutcome.success)) :
    st2.db.entities =
      st.db.entities ++
        mintedRows st.counter (st.counter + 1) (extract_data eR rR).entities ∧
    (mintedRows st.counter (st.counter + 1) (extract_data eR rR).entities).map
        EntityRow.id =
      List.range' (st.counter + 1) (extract_data eR rR).entities.length ∧
    (List.range' (st.counter + 1) (extract_data eR rR).entities.length).Nodup ∧
    (∃ kr, st2.db.knowledge = st.db.knowledge ++ [kr] ∧
      kr.related_entity_ids =
        List.range' (st.counter + 1) (extract_data eR rR).entities.length) ∧
    (∀ ra ∈ st2.session.relation_assertions, ra ∉ st.session.relation_assertions →
      ∃ rel ∈ (extract_data eR rR).relationships, ∃ pS pT,
        lastPick (extract_data eR rR).entities (st.counter + 1)
          (normalize_entity_name rel.source_entity) = some pS ∧
        lastPick (extract_data eR rR).entities (st.counter + 1)
          (normalize_entity_name rel.target_entity) = some pT ∧
        ra.source_entity_id = pS.1 ∧ ra.target_entity_id = pT.1) := by
  obtain ⟨es, rs, hes, hrs, hst2⟩ := save_success_shape failAt now text eR rR st st2 h
  obtain ⟨hbuf, hfin, hcnt, htxn, hknow, hnm, hcm⟩ :=
    procEnts_ok_init failAt st.counter (st.counter + 1) st.db _ es hes
  have htab := procRels_tables failAt st.counter now _ _ _ _ _ _ _ _ hrs
  have htabE : rs.txn.entities = es.txn.entities := htab.1
  have htabK : rs.txn.knowledge = es.txn.knowledge := htab.2
  refine ⟨?_, mintedRows_map_id _ _ _, List.nodup_range' _ _, ?_, ?_⟩
  · rw [hst2]
    show rs.txn.entities = _
    rw [htabE, htxn]
  · refine ⟨{ id := st.counter, content_raw := text, timestamp := now, related_entity_ids := es.final_entity_ids }, ?_, ?_⟩
    · rw [hst2]
      show rs.txn.knowledge ++ _ = _
      rw [htabK, hknow]
    · show es.final_entity_ids = _
      rw [hfin]
  · intro ra hra hnot
    rw [hst2] at hra
    have hra' : ra ∈ st.session.relation_assertions ++ rs.rel_buffer := hra
    rw [List.mem_append] at hra'
    rcases hra' with hmem | hmem
    · exact absurd hmem hnot
    · rcases procRels_ok failAt st.counter now _ _ _ _ _ _ _ _ hrs ra hmem with hm | hsp
      · exact absurd hm (List.not_mem_nil ra)
      · obtain ⟨rel, hrel, rtid, rto, src_id, tgt_id, src_ent, tgt_ent, ev_id,
          hft, hsrc, htgt, hse, hte, hval, hraeq⟩ := hsp
        subst hraeq
        refine ⟨rel, hrel, ?_⟩
        have hs1 : (lastPick (extract_data eR rR).entities (st.counter + 1)
            (normalize_entity_name rel.source_entity)).map Prod.fst = some src_id := by
          rw [← hnm (normalize_entity_name rel.source_entity)]
          exact hsrc
        have ht1 : (lastPick (extract_data eR rR).entities (st.counter + 1)
            (normalize_entity_name rel.target_entity)).map Prod.fst = some tgt_id := by
          rw [← hnm (normalize_entity_name rel.target_entity)]
          exact htgt
        cases hlpS : lastPick (extract_data eR rR).entities (st.counter + 1)
            (normalize_entity_name rel.source_entity) with
        | none =>
            rw [hlpS] at hs1
            exact Option.noConfusion hs1
        | some pS =>
            cases hlpT : lastPick (extract_data eR rR).entities (st.counter + 1)
                (normalize_entity_name rel.target_entity) with
            | none =>
                rw [hlpT] at ht1
                exact Option.noConfusion ht1
            | some pT =>
                rw [hlpS] at hs1
                rw [hlpT] at ht1
                refine ⟨pS, pT, rfl, rfl, ?_, ?_⟩
                · show src_id = pS.1
                  exact (Option.some.inj hs1).symm
                · show tgt_id = pT.1
                  exact (Option.some.inj ht1).symm

/-- C10 witness: the concrete run with entities "Alice", " alice ", "Math"
(first two share the normalized name "alice") succeeds, persists all three
rows with ids 1001–1003 in the KnowledgeEntry, and its `teaches` assertion
resolves "ALICE" to id 1002 — the LAST entity normalizing to "alice". -/
theorem c10_duplicate_name_last_wins_witness :
    save_knowledge_flow none "T" "txt" (Except.ok ibRes) (Except.ok ibRes) ibSt =
      ((save_knowledge_flow none "T" "txt" (Except.ok ibRes) (Except.ok ibRes) ibSt).1,
        SaveOutcome.success) ∧
    (save_knowledge_flow none "T" "txt" (Except.ok ibRes)
        (Except.ok ibRes) ibSt).1.db.entities =
      ibSt.db.entities ++
        mintedRows ibSt.counter (ibSt.counter + 1)
          (extract_data (Except.ok ibRes) (Except.ok ibRes)).entities := by
  have hs : (save_knowledge_flow none "T" "txt" (Except.ok ibRes)
      (Except.ok ibRes) ibSt).2 = SaveOutcome.success := by decide
  have h : save_knowledge_flow none "T" "txt" (Except.ok ibRes) (Except.ok ibRes) ibSt =
      ((save_knowledge_flow none "T" "txt" (Except.ok ibRes) (Except.ok ibRes) ibSt).1,
        SaveOutcome.success) := by
    rw [← hs]
  exact ⟨h, (c10_duplicate_name_last_wins none "T" "txt" (Except.ok ibRes)
    (Except.ok ibRes) ibSt _ h).1⟩

/-- C2: every RelationAssertion created by a successful ingestion run carries,
at creation time, `system_confidence` equal to the (left-nested) minimum of
the candidate's extraction confidence, the source entity's self-reported
confidence, the target entity's self-reported confidence, and the computed
ontology confidence; consequently it is at most the extraction confidence and
at most the ontology confidence, and the ontology confidence lies in [0, 1]. -/
theorem c2_system_confidence_min (failAt : Option ℕ) (now text : String)
    (eR rR : Except Unit ExtractionResult) (st st2 : AppState)
    (h : save_knowledge_flow failAt now text eR rR st = (st2, SaveOutcome.success)) :
    ∀ ra ∈ st2.session.relation_assertions, ra ∉ st.session.relation_assertions →
      ∃ rel ∈ (extract_data eR rR).relationships, ∃ rt eS eT,
        findType st.session.relationship_types rel.machine_name =
          some (ra.relationship_type_id, rt) ∧
        eS ∈ (extract_data eR rR).entities ∧
        eT ∈ (extract_data eR rR).entities ∧
        ra.extraction_confidence = rel.confidence ∧
        ra.ontology_confidence = calculate_ontology_confidence rel rt
          (mkSessionEntity ra.source_entity_id st.counter eS)
          (mkSessionEntity ra.target_entity_id st.counter eT) ∧
        ra.system_confidence =
          rmin (rmin (rmin ra.extraction_confidence eS.confidence) eT.confidence)
            ra.ontology_confidence ∧
        0 ≤ ra.ontology_confidence ∧ ra.ontology_confidence ≤ 1 ∧
        ra.system_confidence ≤ ra.extraction_confidence ∧
        ra.system_confidence ≤ ra.ontology_confidence := by
  obtain ⟨es, rs, hes, hrs, hst2⟩ := save_success_shape failAt now text eR rR st st2 h
  obtain ⟨hbuf, hfin, hcnt, htxn, hknow, hnm, hcm⟩ :=
    procEnts_ok_init failAt st.counter (st.counter + 1) st.db _ es hes
  intro ra hra hnot
  rw [hst2] at hra
  have hra' : ra ∈ st.session.relation_assertions ++ rs.rel_buffer := hra
  rw [List.mem_append] at hra'
  rcases hra' with hmem | hmem
  · exact absurd hmem hnot
  · rcases procRels_ok failAt st.counter now _ _ _ _ _ _ _ _ hrs ra hmem with hm | hsp
    · exact absurd hm (List.not_mem_nil ra)
    · obtain ⟨rel, hrel, rtid, rto, src_id, tgt_id, src_ent, tgt_ent, ev_id,
        hft, hsrc, htgt, hse, hte, hval, hraeq⟩ := hsp
      subst hraeq
      refine ⟨rel, hrel, rto, ?_⟩
      have hs1 : (lastPick (extract_data eR rR).entities (st.counter + 1)
          (normalize_entity_name rel.source_entity)).map Prod.fst = some src_id := by
        rw [← hnm (normalize_entity_name rel.source_entity)]
        exact hsrc
      have ht1 : (lastPick (extract_data eR rR).entities (st.counter + 1)
          (normalize_entity_name rel.target_entity)).map Prod.fst = some tgt_id := by
        rw [← hnm (normalize_entity_name rel.target_entity)]
        exact htgt
      cases hlpS : lastPick (extract_data eR rR).entities (st.counter + 1)
          (normalize_entity_name rel.source_entity) with
      | none =>
          rw [hlpS] at hs1
          exact Option.noConfusion hs1
      | some pS =>
          cases hlpT : lastPick (extract_data eR rR).entities (st.counter + 1)
              (normalize_entity_name rel.target_entity) with
          | none =>
              rw [hlpT] at ht1
              exact Option.noConfusion ht1
          | some pT =>
              rw [hlpS] at hs1
              rw [hlpT] at ht1
              have hps : src_id = pS.1 := (Option.some.inj hs1).symm
              have hpt : tgt_id = pT.1 := (Option.some.inj ht1).symm
              subst hps
              subst hpt
              have hlkS : lookupL pS.1 (mintedNodes st.counter (st.counter + 1)
                  (extract_data eR rR).entities) =
                  some (mkSessionEntity pS.1 st.counter pS.2) :=
                lastPick_lookup_minted st.counter _ _ _ pS.1 pS.2 (by rw [hlpS])
              have hlkT : lookupL pT.1 (mintedNodes st.counter (st.counter + 1)
                  (extract_data eR rR).entities) =
                  some (mkSessionEntity pT.1 st.counter pT.2) :=
                lastPick_lookup_minted st.counter _ _ _ pT.1 pT.2 (by rw [hlpT])
              rw [hbuf, hlkS] at hse
              rw [hbuf, hlkT] at hte
              have hseq : mkSessionEntity pS.1 st.counter pS.2 = src_ent :=
                Option.some.inj hse
              have hteq : mkSessionEntity pT.1 st.counter pT.2 = tgt_ent :=
                Option.some.inj hte
              subst hseq
              subst hteq
              have hmemS : pS.2 ∈ (extract_data eR rR).entities :=
                (lastPick_range _ _ _ pS.1 pS.2 (by rw [hlpS])).2.2.1
              have hmemT : pT.2 ∈ (extract_data eR rR).entities :=
                (lastPick_range _ _ _ pT.1 pT.2 (by rw [hlpT])).2.2.1
              have hcS : es.confMap (normalize_entity_name rel.source_entity) =
                  some pS.2.confidence := by
                rw [hcm (normalize_entity_name rel.source_entity), hlpS]
                rfl
              have hcT : es.confMap (normalize_entity_name rel.target_entity) =
                  some pT.2.confidence := by
                rw [hcm (normalize_entity_name rel.target_entity), hlpT]
                rfl
              refine ⟨pS.2, pT.2, hft, hmemS, hmemT, rfl, rfl, ?_, ?_, ?_, ?_, ?_⟩
              · show rmin (rmin (rmin rel.confidence
                    ((es.confMap (normalize_entity_name rel.source_entity)).getD 1))
                    ((es.confMap (normalize_entity_name rel.target_entity)).getD 1))
                    (calculate_ontology_confidence rel rto
                      (mkSessionEntity pS.1 st.counter pS.2)
                      (mkSessionEntity pT.1 st.counter pT.2)) = _
                rw [hcS, hcT]
                rfl
              · exact calc_conf_nonneg rel rto _ _
              · exact calc_conf_le_one rel rto _ _
              · show rmin (rmin (rmin rel.confidence
                    ((es.confMap (normalize_entity_name rel.source_entity)).getD 1))
                    ((es.confMap (normalize_entity_name rel.target_entity)).getD 1))
                    (calculate_ontology_confidence rel rto
                      (mkSessionEntity pS.1 st.counter pS.2)
                      (mkSessionEntity pT.1 st.counter pT.2)) ≤ rel.confidence
                rw [rmin_eq_min, rmin_eq_min, rmin_eq_min]
                exact le_trans (min_le_left _ _)
                  (le_trans (min_le_left _ _) (min_le_left _ _))
              · show rmin (rmin (rmin rel.confidence
                    ((es.confMap (normalize_entity_name rel.source_entity)).getD 1))
                    ((es.confMap (normalize_entity_name rel.target_entity)).getD 1))
                    (calculate_ontology_confidence rel rto
                      (mkSessionEntity pS.1 st.counter pS.2)
                      (mkSessionEntity pT.1 st.counter pT.2)) ≤
                  calculate_ontology_confidence rel rto
                    (mkSessionEntity pS.1 st.counter pS.2)
                    (mkSessionEntity pT.1 st.counter pT.2)
                rw [rmin_eq_min]
                exact min_le_right _ _

/-- C2 witness: the concrete successful run; its one new assertion satisfies
the full system-confidence characterization. -/
theorem c2_system_confidence_min_witness :
    save_knowledge_flow none "T" "txt" (Except.ok ibRes) (Except.ok ibRes) ibSt =
      ((save_knowledge_flow none "T" "txt" (Except.ok ibRes) (Except.ok ibRes) ibSt).1,
        SaveOutcome.success) ∧
    (∀ ra ∈ (save_knowledge_flow none "T" "txt" (Except.ok ibRes)
        (Except.ok ibRes) ibSt).1.session.relation_assertions,
      ra ∉ ibSt.session.relation_assertions →
      ∃ rel ∈ (extract_data (Except.ok ibRes) (Except.ok ibRes)).relationships,
        ∃ rt eS eT,
          findType ibSt.session.relationship_types rel.machine_name =
            some (ra.relationship_type_id, rt) ∧
          eS ∈ (extract_data (Except.ok ibRes) (Except.ok ibRes)).entities ∧
          eT ∈ (extract_data (Except.ok ibRes) (Except.ok ibRes)).entities ∧
          ra.extraction_confidence = rel.confidence ∧
          ra.ontology_confidence = calculate_ontology_confidence rel rt
            (mkSessionEntity ra.source_entity_id ibSt.counter eS)
            (mkSessionEntity ra.target_entity_id ibSt.counter eT) ∧
          ra.system_confidence =
            rmin (rmin (rmin ra.extraction_confidence eS.confidence) eT.confidence)
              ra.ontology_confidence ∧
          0 ≤ ra.ontology_confidence ∧ ra.ontology_confidence ≤ 1 ∧
          ra.system_confidence ≤ ra.extraction_confidence ∧
          ra.system_confidence ≤ ra.ontology_confidence) := by
  have hs : (save_knowledge_flow none "T" "txt" (Except.ok ibRes)
      (Except.ok ibRes) ibSt).2 = SaveOutcome.success := by decide
  have h : save_knowledge_flow none "T" "txt" (Except.ok ibRes) (Except.ok ibRes) ibSt =
      ((save_knowledge_flow none "T" "txt" (Except.ok ibRes) (Except.ok ibRes) ibSt).1,
        SaveOutcome.success) := by
    rw [← hs]
  exact ⟨h, c2_system_confidence_min none "T" "txt" (Except.ok ibRes)
    (Except.ok ibRes) ibSt _ h⟩

end BrainOS
